import Mathlib

/-!
# ReliefChain ledger: the transaction engine of `src/App.jsx`

A shallow embedding of the data model and of the two mutating operations of
`ReliefChainApp` (`executeTransaction`, `handleAdminAllocation`, with the
helper `recordTransaction`), followed by theorems about them.

Modelling conventions

* A JavaScript number is `JSNum`: a finite value, `NaN` or an infinity.  `+` and
  `-` give the exact result rounded as IEEE 754 binary64 does (`roundDouble`);
  `-0` is not told apart from `0`.
* A JavaScript object used as a map is a function into `Option`; `none` is the
  `undefined` a missing key reads as (keys inherited from `Object.prototype` are
  outside the model).
* `amount` reaches the engine as a string and is read through `parseFloat`; the
  model takes the parsed value `amountNum`, a double, as its input (`parseFloat`
  gives the double a decimal numeral stands for).
* React state is passed explicitly.  `wallets` is the snapshot a call captured,
  `prev` the state its functional updaters are applied to; a call that runs
  alone has `wallets = prev.wallets` (`Transfer`, `Allocate`).
* Presentation state (`notifications`, the text of form fields) is left out;
  of `addNotification` only the evaluation of its argument is kept, because it
  can raise.  The flag `processing`, which gates both submit buttons, and the
  scheduled timer callbacks are modelled by `App` and its events.
-/

namespace ReliefChain

/-! ## JavaScript numbers -/

/-- A JavaScript number: a finite value, `NaN`, `Infinity` or `-Infinity`. A finite value is
carried as the rational it denotes; every double is one, and every arithmetic result is
rounded to a double by `roundDouble`. -/
inductive JSNum where
  | fin (q : ℚ)
  | nan
  | posInf
  | negInf
  deriving DecidableEq

/-- Rounding to the nearest integer, a tie going to the even one. -/
def roundHalfEven (x : ℚ) : ℤ :=
  if x - ⌊x⌋ < 1 / 2 then ⌊x⌋
  else if 1 / 2 < x - ⌊x⌋ then ⌊x⌋ + 1
  else if ⌊x⌋ % 2 = 0 then ⌊x⌋
  else ⌊x⌋ + 1

/-- The exponent `e` of the binade `2^e ≤ |q| < 2^(e+1)` a value lies in, not below the
exponent -1022 of the smallest normal doubles (below it doubles are equally spaced). -/
def binade (q : ℚ) : ℤ := max (Int.log 2 |q|) (-1022)

/-- The spacing `2^(e-52)` of the doubles in the binade of a value. -/
def spacing (q : ℚ) : ℚ := 2 ^ (binade q - 52)

/-- The multiple of the spacing nearest a value, a tie going to the even multiple. -/
def nearest (q : ℚ) : ℚ := (roundHalfEven (q / spacing q) : ℚ) * spacing q

/-- IEEE 754 binary64 rounding of an exact result, to nearest and ties to even: the value is
rounded to a multiple of the spacing `2^(e-52)` of its binade, and becomes an infinity when
the rounded magnitude reaches `2^1024`. -/
def roundDouble (q : ℚ) : JSNum :=
  if (2 : ℚ) ^ (1024 : ℤ) ≤ |nearest q| then
    (if 0 < q then JSNum.posInf else JSNum.negInf)
  else JSNum.fin (nearest q)

/-- The value `parseFloat` gives for a decimal numeral, named by the rational the numeral
denotes: the double nearest it. -/
def parseFloat (q : ℚ) : JSNum := roundDouble q

/-- ToNumber on a property read: `undefined` converts to `NaN`. -/
def toNumber : Option JSNum → JSNum
  | some x => x
  | none => JSNum.nan

/-- The operator `x < y` on numbers: false as soon as one side is `NaN`. -/
def jsLt : JSNum → JSNum → Bool
  | JSNum.fin a, JSNum.fin b => decide (a < b)
  | JSNum.nan, _ => false
  | _, JSNum.nan => false
  | JSNum.negInf, JSNum.negInf => false
  | JSNum.negInf, _ => true
  | JSNum.posInf, _ => false
  | JSNum.fin _, JSNum.posInf => true
  | JSNum.fin _, JSNum.negInf => false

/-- The operator `x - y` on numbers. -/
def jsSub : JSNum → JSNum → JSNum
  | JSNum.fin a, JSNum.fin b => roundDouble (a - b)
  | JSNum.nan, _ => JSNum.nan
  | _, JSNum.nan => JSNum.nan
  | JSNum.posInf, JSNum.posInf => JSNum.nan
  | JSNum.negInf, JSNum.negInf => JSNum.nan
  | JSNum.posInf, _ => JSNum.posInf
  | JSNum.negInf, _ => JSNum.negInf
  | JSNum.fin _, JSNum.posInf => JSNum.negInf
  | JSNum.fin _, JSNum.negInf => JSNum.posInf

/-- The operator `x + y` on numbers. -/
def jsAdd : JSNum → JSNum → JSNum
  | JSNum.fin a, JSNum.fin b => roundDouble (a + b)
  | JSNum.nan, _ => JSNum.nan
  | _, JSNum.nan => JSNum.nan
  | JSNum.posInf, JSNum.negInf => JSNum.nan
  | JSNum.negInf, JSNum.posInf => JSNum.nan
  | JSNum.posInf, _ => JSNum.posInf
  | JSNum.negInf, _ => JSNum.negInf
  | JSNum.fin _, JSNum.posInf => JSNum.posInf
  | JSNum.fin _, JSNum.negInf => JSNum.negInf

/-- The expression `x || 0` on a property read: `undefined`, `NaN` and `0` are
falsy and give `0`; every other number, the infinities included, is kept. -/
def orZero : Option JSNum → JSNum
  | some (JSNum.fin q) => if q = 0 then JSNum.fin 0 else JSNum.fin q
  | some JSNum.posInf => JSNum.posInf
  | some JSNum.negInf => JSNum.negInf
  | _ => JSNum.fin 0

/-- The test `x >= 0` on numbers. -/
def geZero : JSNum → Bool
  | JSNum.fin q => decide (0 ≤ q)
  | JSNum.posInf => true
  | _ => false

/-! ## Data model -/

/-- One entry of `CATEGORIES` (the styling fields are left out). -/
structure Category where
  id : String
  label : String
  deriving DecidableEq

/-- The catalog `CATEGORIES`, as its list of (key, entry) pairs. -/
def CATEGORIES : List (String × Category) :=
  [ ("FOOD", ⟨"cat_food", "Food & Water"⟩),
    ("MEDICAL", ⟨"cat_med", "Medical Aid"⟩),
    ("SHELTER", ⟨"cat_shelter", "Shelter & Housing"⟩),
    ("GENERAL", ⟨"cat_gen", "Unrestricted"⟩) ]

/-- The identifier `CATEGORIES.FOOD.id`. -/
def FOOD_ID : String := "cat_food"
/-- The identifier `CATEGORIES.MEDICAL.id`. -/
def MEDICAL_ID : String := "cat_med"
/-- The identifier `CATEGORIES.SHELTER.id`. -/
def SHELTER_ID : String := "cat_shelter"
/-- The identifier `CATEGORIES.GENERAL.id`, the unrestricted category. -/
def GENERAL_ID : String := "cat_gen"

/-- An account of the registry; `category` is absent for non-merchants
(`location` and `kycStatus` are display data and left out). -/
structure User where
  id : String
  name : String
  role : String
  verified : Bool
  category : Option String := none
  deriving DecidableEq

/-- The registry `INITIAL_USERS`. -/
def INITIAL_USERS : List User :=
  [ { id := "admin_1", name := "Relief Admin (NGO)", role := "ADMIN", verified := true },
    { id := "donor_1", name := "Global Aid Foundation", role := "DONOR", verified := true },
    { id := "ben_1", name := "Maria Garcia", role := "BENEFICIARY", verified := true },
    { id := "ben_2", name := "Ahmed Khan", role := "BENEFICIARY", verified := true },
    { id := "merch_1", name := "Central Pharmacy", role := "MERCHANT", verified := true,
      category := some "MEDICAL" },
    { id := "merch_2", name := "Fresh Mart Grocery", role := "MERCHANT", verified := true,
      category := some "FOOD" },
    { id := "merch_3", name := "SafeStay Supplies", role := "MERCHANT", verified := true,
      category := some "SHELTER" },
    { id := "merch_4", name := "Unauthorized Vendor", role := "MERCHANT", verified := false,
      category := some "GENERAL" } ]

/-- One account's wallet: category identifier to balance. -/
abbrev Wallet := String → Option JSNum

/-- The balance store: account identifier to wallet. -/
abbrev Wallets := String → Option Wallet

/-- The object literal with no key. -/
def emptyWallet : Wallet := fun _ => none

/-- The store `INITIAL_WALLETS`. -/
def INITIAL_WALLETS : Wallets := fun acct =>
  if acct = "ben_1" then
    some (fun c =>
      if c = FOOD_ID then some (JSNum.fin 150) else if c = MEDICAL_ID then some (JSNum.fin 50)
      else if c = SHELTER_ID then some (JSNum.fin 0) else if c = GENERAL_ID then some (JSNum.fin 10) else none)
  else if acct = "ben_2" then
    some (fun c =>
      if c = FOOD_ID then some (JSNum.fin 75) else if c = MEDICAL_ID then some (JSNum.fin 200)
      else if c = SHELTER_ID then some (JSNum.fin 500) else if c = GENERAL_ID then some (JSNum.fin 0) else none)
  else if acct = "donor_1" then
    some (fun c => if c = GENERAL_ID then some (JSNum.fin 5000000) else none)
  else if acct = "merch_1" ∨ acct = "merch_2" ∨ acct = "merch_3" ∨ acct = "merch_4" then
    some (fun c => if c = GENERAL_ID then some (JSNum.fin 0) else none)
  else none

/-- A record of the transaction log, as `recordTransaction` builds it. -/
structure Tx where
  hash : String
  timestamp : String
  fromName : String
  toName : String
  amount : JSNum
  category : String
  status : String
  details : String
  deriving DecidableEq

/-- The two pieces of React state the engine writes. -/
structure State where
  wallets : Wallets
  transactions : List Tx

/-- What a call captures from its surroundings: the registry `users`, the
account acting (`currentUser`), and the values `generateHash()` and
`new Date().toISOString()` give when the record is built. -/
structure Env where
  users : List User
  currentUser : User
  hash : String
  timestamp : String

/-- How a call ends.  `done`: the timer callback ran to its end.  `raised`: a
TypeError left the callback; the state carries the updates queued before it.
`crashed`: a state updater raised when React applied it. -/
inductive Outcome where
  | done (s : State)
  | raised (s : State)
  | crashed

/-- The state a call leaves, when there is one. -/
def Outcome.state? : Outcome → Option State
  | Outcome.done s => some s
  | Outcome.raised s => some s
  | Outcome.crashed => none

/-! ## Operations -/

/-- The lookup `users.find(u => u.id === id)`. -/
def findUser (users : List User) (id : String) : Option User :=
  users.find? (fun u => decide (u.id = id))

/-- The expression `users.find(u => u.id === id)?.name || 'System'`. -/
def displayName (users : List User) (id : String) : String :=
  match findUser users id with
  | some u => if u.name = "" then "System" else u.name
  | none => "System"

/-- What `recordTransaction` does: build the record and put it at the head of the log. -/
def recordTransaction (env : Env) (prev : State) (sender recipient : String) (amount : JSNum)
    (category status details : String) : State :=
  { prev with
    transactions :=
      { hash := env.hash, timestamp := env.timestamp,
        fromName := displayName env.users sender, toName := displayName env.users recipient,
        amount := amount, category := category, status := status, details := details }
      :: prev.transactions }

/-- A template-literal hole filled with an optional string. -/
def template : Option String → String
  | some s => s
  | none => "undefined"

/-- The label the mismatch notification reads,
`CATEGORIES[Object.keys(CATEGORIES).find(k => CATEGORIES[k].id === categoryId)].label`;
`none` when the read raises because no catalog entry has that identifier. -/
def categoryLabel (categoryId : String) : Option String :=
  (CATEGORIES.find? (fun kc => decide (kc.2.id = categoryId))).map (fun kc => kc.2.label)

/-- The object literal `{ ...prev, [key]: w }`. -/
def setWallet (prev : Wallets) (key : String) (w : Wallet) : Wallets :=
  fun k => if k = key then some w else prev k

/-- The object literal `{ ...w, [key]: v }`. -/
def setBalance (w : Wallet) (key : String) (v : JSNum) : Wallet :=
  fun k => if k = key then some v else w k

/-- The updater passed to `setWallets` by `executeTransaction`; `none` when a
property read on `undefined` raises.  The `[receiverId]` key is written after
the `[senderId]` key. -/
def transferUpdate (prev : Wallets) (senderId receiverId : String) (amountNum : JSNum)
    (categoryId : String) : Option Wallets :=
  match prev senderId with
  | none => none
  | some sw =>
    match prev receiverId with
    | none => none
    | some rw =>
      some (setWallet
        (setWallet prev senderId
          (setBalance sw categoryId (jsSub (toNumber (sw categoryId)) amountNum)))
        receiverId
        (setBalance rw GENERAL_ID (jsAdd (orZero (rw GENERAL_ID)) amountNum)))

/-- The body of the timer callback of `executeTransaction`. -/
def executeTransaction (env : Env) (wallets : Wallets) (prev : State)
    (senderId receiverId : String) (amountNum : JSNum) (categoryId : String) : Outcome :=
  match wallets senderId with
  | none => Outcome.raised prev
  | some senderWallet =>
    let receiver := findUser env.users receiverId
    let transfer : Outcome :=
      match transferUpdate prev.wallets senderId receiverId amountNum categoryId with
      | none => Outcome.crashed
      | some w =>
        let s := recordTransaction env { prev with wallets := w } senderId receiverId amountNum
          categoryId "SUCCESS" "Smart Contract Verified"
        match receiver with
        | none => Outcome.raised s
        | some _ => Outcome.done s
    if jsLt (toNumber (senderWallet categoryId)) amountNum then
      Outcome.done (recordTransaction env prev senderId receiverId amountNum categoryId
        "FAILED" "Insufficient Funds in Category")
    else if env.currentUser.role = "BENEFICIARY" then
      match receiver with
      | none =>
        Outcome.done (recordTransaction env prev senderId receiverId amountNum categoryId
          "FAILED" "Invalid Receiver")
      | some r =>
        if r.role ≠ "MERCHANT" then
          Outcome.done (recordTransaction env prev senderId receiverId amountNum categoryId
            "FAILED" "Invalid Receiver")
        else if r.category ≠ some categoryId ∧ categoryId ≠ GENERAL_ID then
          let s := recordTransaction env prev senderId receiverId amountNum categoryId
            "FAILED" ("Category Mismatch: Merchant is " ++ template r.category)
          match categoryLabel categoryId with
          | none => Outcome.raised s
          | some _ => Outcome.done s
        else if r.verified = false then
          Outcome.done (recordTransaction env prev senderId receiverId amountNum categoryId
            "FAILED" "Merchant Not Verified")
        else transfer
    else transfer

/-- The updater passed to `setWallets` by `handleAdminAllocation`. -/
def allocationUpdate (prev : Wallets) (beneficiaryId : String) (amountNum : JSNum)
    (categoryId : String) : Option Wallets :=
  match prev beneficiaryId with
  | none => none
  | some bw =>
    some (setWallet prev beneficiaryId
      (setBalance bw categoryId (jsAdd (orZero (bw categoryId)) amountNum)))

/-- The body of the timer callback of `handleAdminAllocation`. -/
def handleAdminAllocation (env : Env) (prev : State) (beneficiaryId : String)
    (amountNum : JSNum) (categoryId : String) : Outcome :=
  match allocationUpdate prev.wallets beneficiaryId amountNum categoryId with
  | none => Outcome.crashed
  | some w =>
    Outcome.done (recordTransaction env { prev with wallets := w } "admin_1" beneficiaryId
      amountNum categoryId "SUCCESS" "Relief Allocation")

/-- A transfer that runs alone: validated and applied against the same store. -/
def Transfer (env : Env) (s : State) (senderId receiverId : String) (amountNum : JSNum)
    (categoryId : String) : Outcome :=
  executeTransaction env s.wallets s senderId receiverId amountNum categoryId

/-- An allocation that runs alone. -/
def Allocate (env : Env) (s : State) (beneficiaryId : String) (amountNum : JSNum)
    (categoryId : String) : Outcome :=
  handleAdminAllocation env s beneficiaryId amountNum categoryId

/-- The balance a store holds for an account and a category (`none`: no entry). -/
def balance (w : Wallets) (acct cat : String) : Option JSNum :=
  match w acct with
  | some wl => wl cat
  | none => none

/-- The program's registry with `u` acting, for an account `u` of the registry. -/
def envOf (u : User) : Env :=
  { users := INITIAL_USERS, currentUser := u, hash := "0x0", timestamp := "t0" }

/-- The state the program starts in. -/
def initialState : State := { wallets := INITIAL_WALLETS, transactions := [] }

/-- The first beneficiary of the registry. -/
def ben_1 : User :=
  { id := "ben_1", name := "Maria Garcia", role := "BENEFICIARY", verified := true }
/-- The donor of the registry. -/
def donor_1 : User :=
  { id := "donor_1", name := "Global Aid Foundation", role := "DONOR", verified := true }
/-- The administrator of the registry. -/
def admin_1 : User :=
  { id := "admin_1", name := "Relief Admin (NGO)", role := "ADMIN", verified := true }

/-- The status and details of the newest record of an outcome's log. -/
def Outcome.newest (o : Outcome) : Option (String × String) :=
  match o.state? with
  | some s => s.transactions.head?.map (fun t => (t.status, t.details))
  | none => none

/-- The records a call put in front of the log `s.transactions`. -/
def newRecords (s s' : State) : List Tx :=
  s'.transactions.take (s'.transactions.length - s.transactions.length)

/-- The store of scenario C: `INITIAL_WALLETS` with 200 FOOD held by `ben_1`. -/
def scenarioC : State :=
  { wallets := setWallet INITIAL_WALLETS "ben_1" (setBalance emptyWallet FOOD_ID (JSNum.fin 200)),
    transactions := [] }

/-- The total the conservation property speaks of: the sender's balance at the category drawn
from plus the receiver's balance at the unrestricted category. -/
def pairTotal (w : Wallets) (senderId categoryId receiverId : String) : JSNum :=
  jsAdd (toNumber (balance w senderId categoryId)) (toNumber (balance w receiverId GENERAL_ID))

/-- The record scenario B adds: 100 MEDICAL refused to `ben_1`, who holds 50. -/
def scenarioB_record : Tx :=
  { hash := "0x0", timestamp := "t0", fromName := "Maria Garcia", toName := "Central Pharmacy",
    amount := JSNum.fin 100, category := MEDICAL_ID, status := "FAILED",
    details := "Insufficient Funds in Category" }

/-- The state scenario B ends in. -/
def scenarioB_after : State :=
  { wallets := INITIAL_WALLETS, transactions := [scenarioB_record] }

/-- The states the program can be in: the initial state, and every state left by a transfer
or an allocation that ran alone on such a state, with the program's registry and one of its
accounts acting. -/
inductive Reachable : State → Prop where
  | init : Reachable initialState
  | transfer (env : Env) (s s' : State) (senderId receiverId : String) (a : JSNum)
      (c : String) :
      Reachable s → env.users = INITIAL_USERS → env.currentUser ∈ INITIAL_USERS →
      (Transfer env s senderId receiverId a c).state? = some s' → Reachable s'
  | allocate (env : Env) (s s' : State) (beneficiaryId : String) (a : JSNum) (c : String) :
      Reachable s → env.users = INITIAL_USERS → env.currentUser ∈ INITIAL_USERS →
      (Allocate env s beneficiaryId a c).state? = some s' → Reachable s'

/-- The property names a plain object inherits from `Object.prototype`. A wallet that stores
no entry under one of them reads the inherited value there (a function, or the prototype), not
`undefined`; the model reads every missing key as `undefined`, so what is stated about the
read of an entry that may be missing is stated for the other keys. -/
def inheritedKeys : List String :=
  [ "constructor", "hasOwnProperty", "isPrototypeOf", "propertyIsEnumerable", "toLocaleString",
    "toString", "valueOf", "__proto__", "__defineGetter__", "__defineSetter__",
    "__lookupGetter__", "__lookupSetter__" ]

/-- Every stored balance of the store is at least 0 (the test `x >= 0`): it is not negative
and not `NaN`; it can be `Infinity`. -/
def NonNegative (w : Wallets) : Prop :=
  ∀ acct cat x, balance w acct cat = some x → geZero x = true

/-- The state after the administrator allocates -500 MEDICAL to `ben_1` in the initial state. -/
def afterNegativeAllocation : State :=
  ((Allocate (envOf admin_1) initialState "ben_1" (JSNum.fin (-500)) MEDICAL_ID).state?).getD
    initialState

/-- The states reached from the initial state by transfers and allocations that ran one at a
time, each validated and applied against the store the call before it left, with any registry,
acting account, sender, receiver and category, where every transfer has a finite amount that
is at least 0 and draws from a stored balance entry, and every allocation has an amount that
passes `>= 0` (`Infinity` included) and a category that is not an inherited property name. -/
inductive GuardedRun : State → Prop where
  | init : GuardedRun initialState
  | transfer (env : Env) (s s' : State) (senderId receiverId : String) (a : ℚ) (c : String) :
      GuardedRun s → 0 ≤ a → balance s.wallets senderId c ≠ none →
      (Transfer env s senderId receiverId (JSNum.fin a) c).state? = some s' → GuardedRun s'
  | allocate (env : Env) (s s' : State) (beneficiaryId : String) (amt : JSNum) (c : String) :
      GuardedRun s → geZero amt = true → c ∉ inheritedKeys →
      (Allocate env s beneficiaryId amt c).state? = some s' → GuardedRun s'

/-- The state scenario E ends in: the administrator has allocated 500 MEDICAL to `ben_1` in
the initial state. -/
def scenarioE_after : State :=
  ((Allocate (envOf admin_1) initialState "ben_1" (JSNum.fin 500) MEDICAL_ID).state?).getD
    initialState

/-- The state after `ben_1` then pays 10 unrestricted to `merch_1`. -/
def scenarioE_paid : State :=
  ((Transfer (envOf ben_1) scenarioE_after "ben_1" "merch_1" (JSNum.fin 10) GENERAL_ID).state?).getD
    initialState

/-! ## The forms that call the engine

Both operations start from a button. The button sets `processing`, which disables both buttons,
and schedules the engine's body as a timer callback that closes over the state of the render
in which the button was clicked. -/

/-- A timer callback that is scheduled and has not run yet, with what it closed over. A
transfer keeps the `wallets` of the render it was made in. -/
inductive Job where
  | transfer (env : Env) (wallets : Wallets) (senderId receiverId : String)
      (amountNum : JSNum) (categoryId : String)
  | allocation (env : Env) (beneficiaryId : String) (amountNum : JSNum) (categoryId : String)

/-- The application state the two forms and the timers act on. -/
structure App where
  ledger : State
  processing : Bool
  pending : List Job

/-- The application when it is mounted. -/
def App.initial : App := { ledger := initialState, processing := false, pending := [] }

/-- The values the allocation form offers for the beneficiary,
`users.filter(u => u.role === 'BENEFICIARY')`. -/
def beneficiaryOptions (users : List User) : List String :=
  (users.filter (fun u => decide (u.role = "BENEFICIARY"))).map (fun u => u.id)

/-- The values the allocation form offers for the category, `Object.values(CATEGORIES)`. -/
def allocationCategoryOptions : List String :=
  CATEGORIES.map (fun kc => kc.2.id)

/-- The values the payment form offers for the merchant: the empty placeholder and
`users.filter(u => u.role === 'MERCHANT')`. -/
def merchantOptions (users : List User) : List String :=
  "" :: (users.filter (fun u => decide (u.role = "MERCHANT"))).map (fun u => u.id)

/-- The values `paymentCategory` takes: it starts at `CATEGORIES.FOOD.id` and the pocket
buttons are `Object.values(CATEGORIES).filter(c => c.id !== 'cat_gen')`. -/
def paymentCategoryOptions : List String :=
  (CATEGORIES.filter (fun kc => decide (kc.2.id ≠ "cat_gen"))).map (fun kc => kc.2.id)

/-- A click on "Confirm Payment". The button is disabled while no merchant is selected or
`processing` is set (the test on the text of the amount field only disables it further);
otherwise `executeTransaction(currentUser.id, selectedMerchant, paymentAmount,
paymentCategory)` sets `processing` and schedules its body. -/
def payClick (app : App) (env : Env) (selectedMerchant : String) (paymentAmount : JSNum)
    (paymentCategory : String) : App :=
  if selectedMerchant = "" ∨ app.processing = true then app
  else
    { app with
      processing := true
      pending := app.pending ++
        [Job.transfer env app.ledger.wallets env.currentUser.id selectedMerchant paymentAmount
          paymentCategory] }

/-- A click on the allocation button. The button is disabled while `processing` is set;
its handler calls `handleAdminAllocation(ben, amt, cat)` only `if (amt > 0)`, and the call
sets `processing` and schedules its body. -/
def allocationClick (app : App) (env : Env) (ben : String) (amt : JSNum) (cat : String) : App :=
  if app.processing = true then app
  else if jsLt (JSNum.fin 0) amt then
    { app with
      processing := true
      pending := app.pending ++ [Job.allocation env ben amt cat] }
  else app

/-- The body of a scheduled callback, run on the state it meets. -/
def runJob (ledger : State) : Job → Outcome
  | Job.transfer env wallets senderId receiverId amountNum categoryId =>
    executeTransaction env wallets ledger senderId receiverId amountNum categoryId
  | Job.allocation env beneficiaryId amountNum categoryId =>
    handleAdminAllocation env ledger beneficiaryId amountNum categoryId

/-- The timer of the `i`-th scheduled callback fires. A callback that runs to its end clears
`processing`; one that raises leaves it set; `none` when there is no such callback or the
application does not survive it. -/
def timerFires (app : App) (i : Nat) : Option App :=
  match app.pending.get? i with
  | none => none
  | some job =>
    match runJob app.ledger job with
    | Outcome.done s =>
      some { ledger := s, processing := false, pending := app.pending.eraseIdx i }
    | Outcome.raised s =>
      some { ledger := s, processing := app.processing, pending := app.pending.eraseIdx i }
    | Outcome.crashed => none

/-- The application states the forms and timers can produce: payments are made by the acting
beneficiary with a merchant and a pocket the form offers, allocations by the administrator
with a beneficiary and a category the form offers. -/
inductive AppReachable : App → Prop where
  | init : AppReachable App.initial
  | pay (app : App) (env : Env) (selectedMerchant : String) (paymentAmount : JSNum)
      (paymentCategory : String) :
      AppReachable app → env.users = INITIAL_USERS → env.currentUser ∈ INITIAL_USERS →
      env.currentUser.role = "BENEFICIARY" →
      selectedMerchant ∈ merchantOptions env.users →
      paymentCategory ∈ paymentCategoryOptions →
      AppReachable (payClick app env selectedMerchant paymentAmount paymentCategory)
  | allocate (app : App) (env : Env) (ben : String) (amt : JSNum) (cat : String) :
      AppReachable app → env.users = INITIAL_USERS → env.currentUser ∈ INITIAL_USERS →
      env.currentUser.role = "ADMIN" →
      ben ∈ beneficiaryOptions env.users →
      cat ∈ allocationCategoryOptions →
      AppReachable (allocationClick app env ben amt cat)
  | timer (app app' : App) (i : Nat) :
      AppReachable app → timerFires app i = some app' → AppReachable app'

/-- The state left when the first of two payments of 10 unrestricted from `ben_1` to `merch_1`,
both made in the initial render, has run. -/
def raceFirst : State :=
  ((executeTransaction (envOf ben_1) INITIAL_WALLETS initialState "ben_1" "merch_1"
    (JSNum.fin 10) GENERAL_ID).state?).getD initialState

/-- The state left when the second one has run on it, with the same captured `wallets`. -/
def raceSecond : State :=
  ((executeTransaction (envOf ben_1) INITIAL_WALLETS raceFirst "ben_1" "merch_1"
    (JSNum.fin 10) GENERAL_ID).state?).getD initialState

/-- What the forms guarantee of a scheduled callback, given the store `w` of the moment: a
payment kept that store as its `wallets`, is made by the acting beneficiary, to a merchant and
from a pocket the form offers; an allocation has an amount greater than 0, and a beneficiary
and a category the form offers. -/
def Job.admissible (w : Wallets) : Job → Prop
  | Job.transfer env wallets senderId receiverId _ categoryId =>
    wallets = w ∧ env.users = INITIAL_USERS ∧ env.currentUser.role = "BENEFICIARY"
      ∧ senderId = env.currentUser.id ∧ receiverId ∈ merchantOptions INITIAL_USERS
      ∧ categoryId ∈ paymentCategoryOptions
  | Job.allocation _ beneficiaryId amountNum categoryId =>
    jsLt (JSNum.fin 0) amountNum = true ∧ beneficiaryId ∈ beneficiaryOptions INITIAL_USERS
      ∧ categoryId ∈ allocationCategoryOptions

/-- The state scenario "unknown category" ends in: `ben_1` has sent 100 of `cat_unknown` to
`merch_2` in the initial state. -/
def unknownCategory_after : State :=
  recordTransaction (envOf ben_1) initialState "ben_1" "merch_2" (JSNum.fin 100) "cat_unknown"
    "FAILED" "Category Mismatch: Merchant is FOOD"

/-- The state after `ben_1` pays 10 unrestricted to `merch_1` in the initial state. -/
def paid_after : State :=
  ((Transfer (envOf ben_1) initialState "ben_1" "merch_1" (JSNum.fin 10) GENERAL_ID).state?).getD
    initialState

/-- The record that payment adds. -/
def paid_record : Tx :=
  { hash := "0x0", timestamp := "t0", fromName := "Maria Garcia", toName := "Central Pharmacy",
    amount := JSNum.fin 10, category := GENERAL_ID, status := "SUCCESS",
    details := "Smart Contract Verified" }

/-- The state after `ben_1` pays 5 unrestricted to `merch_1` in the initial state. -/
def paidFive_after : State :=
  ((Transfer (envOf ben_1) initialState "ben_1" "merch_1" (JSNum.fin 5) GENERAL_ID).state?).getD
    initialState

/-- The record that payment adds. -/
def paidFive_record : Tx :=
  { hash := "0x0", timestamp := "t0", fromName := "Maria Garcia", toName := "Central Pharmacy",
    amount := JSNum.fin 5, category := GENERAL_ID, status := "SUCCESS",
    details := "Smart Contract Verified" }

/-- The application after `ben_1` has clicked "Confirm Payment" for 100 FOOD to `merch_2`. -/
def payingApp : App :=
  payClick App.initial (envOf ben_1) "merch_2" (JSNum.fin 100) FOOD_ID

end ReliefChain

open ReliefChain

/-! ## Shared lemmas -/

/-! ### Rounding -/

/-- The binade of a value between two consecutive powers of two. -/
theorem binade_eq (q : ℚ) (e : ℤ) (h1 : (2 : ℚ) ^ e ≤ |q|) (h2 : |q| < (2 : ℚ) ^ (e + 1))
    (he : -1022 ≤ e) : binade q = e := by
  have hpos : (0 : ℚ) < |q| := lt_of_lt_of_le (by positivity) h1
  have hle : e ≤ Int.log 2 |q| := (Int.zpow_le_iff_le_log (by norm_num) hpos).mp (by exact_mod_cast h1)
  have hlt : Int.log 2 |q| < e + 1 := (Int.lt_zpow_iff_log_lt (by norm_num) hpos).mp (by exact_mod_cast h2)
  unfold binade
  have : Int.log 2 |q| = e := by omega
  rw [this]
  exact max_eq_left he

/-- An integer is rounded to itself. -/
theorem roundHalfEven_intCast (n : ℤ) : roundHalfEven (n : ℚ) = n := by
  simp [roundHalfEven]

/-- Rounding keeps a value that is at least 0 at least 0. -/
theorem roundHalfEven_nonneg (x : ℚ) (hx : 0 ≤ x) : 0 ≤ roundHalfEven x := by
  have hf : 0 ≤ ⌊x⌋ := Int.floor_nonneg.mpr hx
  unfold roundHalfEven
  split_ifs <;> omega

/-- Evaluation of the rounding once the binade is known. -/
theorem roundDouble_eval (q : ℚ) (e n : ℤ) (h1 : (2 : ℚ) ^ e ≤ |q|) (h2 : |q| < (2 : ℚ) ^ (e + 1))
    (he : -1022 ≤ e) (hn : roundHalfEven (q / 2 ^ (e - 52)) = n)
    (hfin : |(n : ℚ) * 2 ^ (e - 52)| < 2 ^ (1024 : ℤ)) :
    roundDouble q = JSNum.fin ((n : ℚ) * 2 ^ (e - 52)) := by
  unfold roundDouble nearest spacing
  rw [binade_eq q e h1 h2 he, hn, if_neg (not_le.mpr hfin)]

/-- Zero is a double. -/
theorem roundDouble_zero : roundDouble 0 = JSNum.fin 0 := by
  unfold roundDouble nearest spacing
  simp [roundHalfEven]
  positivity

/-- Every integer of magnitude below `2^53` is a double. -/
theorem roundDouble_intCast (n : ℤ) (hn : |n| < 2 ^ 53) : roundDouble (n : ℚ) = JSNum.fin n := by
  by_cases h0 : n = 0
  · subst h0
    simpa using roundDouble_zero
  · have hpos : (0 : ℚ) < |(n : ℚ)| := abs_pos.mpr (by exact_mod_cast h0)
    have hone : (1 : ℚ) ≤ |(n : ℚ)| := by
      have : (1 : ℤ) ≤ |n| := Int.one_le_abs h0
      exact_mod_cast this
    have hlt : |(n : ℚ)| < (2 : ℚ) ^ (53 : ℤ) := by
      have h' : ((|n| : ℤ) : ℚ) < ((2 ^ 53 : ℤ) : ℚ) := by exact_mod_cast hn
      have e53 : (2 : ℚ) ^ (53 : ℤ) = ((2 ^ 53 : ℤ) : ℚ) := by norm_num
      rw [e53, ← Int.cast_abs]
      exact h'
    set e := Int.log 2 |(n : ℚ)| with he
    have h1 : (2 : ℚ) ^ e ≤ |(n : ℚ)| := by
      have := Int.zpow_log_le_self (b := 2) (by norm_num) hpos
      simpa using this
    have h2 : |(n : ℚ)| < (2 : ℚ) ^ (e + 1) := by
      have := Int.lt_zpow_succ_log_self (b := 2) (by norm_num) |(n : ℚ)|
      simpa using this
    have he0 : 0 ≤ e := (Int.zpow_le_iff_le_log (b := 2) (by norm_num) hpos).mp (by simpa using hone)
    have he53 : e < 53 := (Int.lt_zpow_iff_log_lt (b := 2) (by norm_num) hpos).mp (by simpa using hlt)
    obtain ⟨k, hk⟩ : ∃ k : ℕ, (k : ℤ) = 52 - e := ⟨(52 - e).toNat, by omega⟩
    have hu : (2 : ℚ) ^ (e - 52) = ((2 : ℚ) ^ k)⁻¹ := by
      have : e - 52 = -(k : ℤ) := by omega
      rw [this, zpow_neg, zpow_natCast]
    have hdiv : (n : ℚ) / 2 ^ (e - 52) = ((n * 2 ^ k : ℤ) : ℚ) := by
      rw [hu]
      push_cast
      field_simp
    have hval : (((n * 2 ^ k : ℤ) : ℚ)) * 2 ^ (e - 52) = n := by
      rw [hu]
      push_cast
      field_simp
    have := roundDouble_eval (n : ℚ) e (n * 2 ^ k) h1 h2 (by omega)
      (by rw [hdiv, roundHalfEven_intCast])
      (by rw [hval]; exact lt_trans hlt (by norm_num))
    rw [this, hval]

/-- The double nearest a value that is at least 0 is at least 0 or `Infinity`. -/
theorem roundDouble_nonneg (q : ℚ) (hq : 0 ≤ q) :
    roundDouble q = JSNum.posInf ∨ ∃ r, roundDouble q = JSNum.fin r ∧ 0 ≤ r := by
  have hu : (0 : ℚ) < 2 ^ (binade q - 52) := by positivity
  have hn : 0 ≤ roundHalfEven (q / 2 ^ (binade q - 52)) :=
    roundHalfEven_nonneg _ (div_nonneg hq hu.le)
  have hr : (0 : ℚ) ≤ (roundHalfEven (q / 2 ^ (binade q - 52)) : ℚ) * 2 ^ (binade q - 52) :=
    mul_nonneg (by exact_mod_cast hn) hu.le
  unfold roundDouble nearest spacing
  by_cases hbig : (2 : ℚ) ^ (1024 : ℤ)
      ≤ |(roundHalfEven (q / 2 ^ (binade q - 52)) : ℚ) * 2 ^ (binade q - 52)|
  · rw [if_pos hbig]
    have hq0 : 0 < q := by
      rcases eq_or_lt_of_le hq with h | h
      · exfalso
        rw [← h] at hbig
        simp [roundHalfEven] at hbig
        have : (0:ℚ) < 2 ^ (1024:ℤ) := by positivity
        linarith
      · exact h
    rw [if_pos hq0]
    exact Or.inl rfl
  · rw [if_neg hbig]
    exact Or.inr ⟨_, rfl, hr⟩

/-- A value known to be an integer of magnitude below `2^53` is a double. -/
theorem roundDouble_of_int (q : ℚ) (n : ℤ) (hq : q = n) (hn : |n| < 2 ^ 53) :
    roundDouble q = JSNum.fin q := by
  subst hq
  exact roundDouble_intCast n hn

/-- Reading a stored number gives that number. -/
theorem toNumber_some (x : JSNum) : toNumber (some x) = x := rfl

/-- The sum of two finite numbers is the double nearest their exact sum. -/
theorem jsAdd_fin (a b : ℚ) : jsAdd (JSNum.fin a) (JSNum.fin b) = roundDouble (a + b) := rfl

/-- The difference of two finite numbers is the double nearest their exact difference. -/
theorem jsSub_fin (a b : ℚ) : jsSub (JSNum.fin a) (JSNum.fin b) = roundDouble (a - b) := rfl

/-- A sum that is an integer of magnitude below `2^53` is computed exactly. -/
theorem jsAdd_exact (a b c : ℚ) (n : ℤ) (hc : a + b = c) (hcn : c = n) (hn : |n| < 2 ^ 53) :
    jsAdd (JSNum.fin a) (JSNum.fin b) = JSNum.fin c := by
  rw [jsAdd_fin, hc]
  exact roundDouble_of_int c n hcn hn

/-- A difference that is an integer of magnitude below `2^53` is computed exactly. -/
theorem jsSub_exact (a b c : ℚ) (n : ℤ) (hc : a - b = c) (hcn : c = n) (hn : |n| < 2 ^ 53) :
    jsSub (JSNum.fin a) (JSNum.fin b) = JSNum.fin c := by
  rw [jsSub_fin, hc]
  exact roundDouble_of_int c n hcn hn

/-- The double nearest `2^53` is `2^53`. -/
theorem roundDouble_two_pow_53 :
    roundDouble 9007199254740992 = JSNum.fin 9007199254740992 := by
  have h := roundDouble_eval 9007199254740992 53 4503599627370496
    (by norm_num [abs_of_nonneg]) (by norm_num [abs_of_nonneg]) (by norm_num)
    (by
      have hx : ((9007199254740992 : ℚ) / 2 ^ ((53 : ℤ) - 52))
          = ((4503599627370496 : ℤ) : ℚ) := by norm_num
      rw [hx, roundHalfEven_intCast])
    (by norm_num [abs_of_nonneg])
  rw [h]
  norm_num

/-- The double nearest `2^53 + 1` is `2^53`: the value lies halfway between the doubles `2^53`
and `2^53 + 2`, and the tie goes to the even one. -/
theorem roundDouble_two_pow_53_add_one :
    roundDouble 9007199254740993 = JSNum.fin 9007199254740992 := by
  have h := roundDouble_eval 9007199254740993 53 4503599627370496
    (by norm_num [abs_of_nonneg]) (by norm_num [abs_of_nonneg]) (by norm_num)
    (by
      have hx : ((9007199254740993 : ℚ) / 2 ^ ((53 : ℤ) - 52)) = 4503599627370496 + 1 / 2 := by
        norm_num
      have hfl : ⌊(4503599627370496 + 1 / 2 : ℚ)⌋ = 4503599627370496 := by
        rw [Int.floor_eq_iff]; constructor <;> norm_num
      rw [hx]
      unfold roundHalfEven
      rw [hfl]
      norm_num)
    (by norm_num [abs_of_nonneg])
  rw [h]
  norm_num

/-- The nearest integer lies between the floor and the floor plus one. -/
theorem roundHalfEven_bounds (x : ℚ) : ⌊x⌋ ≤ roundHalfEven x ∧ roundHalfEven x ≤ ⌊x⌋ + 1 := by
  unfold roundHalfEven
  split_ifs <;> constructor <;> omega

/-- Rounding to the nearest integer is monotone. -/
theorem roundHalfEven_mono (x y : ℚ) (h : x ≤ y) : roundHalfEven x ≤ roundHalfEven y := by
  have hfl : ⌊x⌋ ≤ ⌊y⌋ := Int.floor_mono h
  rcases lt_or_eq_of_le hfl with hlt | heq
  · have h1 := (roundHalfEven_bounds x).2
    have h2 := (roundHalfEven_bounds y).1
    omega
  · unfold roundHalfEven
    rw [← heq]
    have hxy : x - (⌊x⌋ : ℚ) ≤ y - (⌊x⌋ : ℚ) := by linarith
    split_ifs <;> first | omega | (exfalso; linarith)

/-- Rounding to the nearest integer, ties to even, commutes with negation. -/
theorem roundHalfEven_neg (x : ℚ) : roundHalfEven (-x) = -roundHalfEven x := by
  by_cases hint : (⌊x⌋ : ℚ) = x
  · rw [← hint, ← Int.cast_neg, roundHalfEven_intCast, roundHalfEven_intCast]
  · have hlt : (⌊x⌋ : ℚ) < x := lt_of_le_of_ne (Int.floor_le x) hint
    have hlt2 : x < ⌊x⌋ + 1 := Int.lt_floor_add_one x
    have hfl : ⌊-x⌋ = -⌊x⌋ - 1 := by
      rw [Int.floor_eq_iff]
      push_cast
      constructor <;> linarith
    unfold roundHalfEven
    rw [hfl]
    push_cast
    split_ifs <;> first | omega | (exfalso; linarith)

/-- The spacing is positive. -/
theorem spacing_pos (q : ℚ) : 0 < spacing q := by
  unfold spacing
  positivity

/-- A value lies below the upper end of its binade. -/
theorem lt_binade_succ (q : ℚ) : |q| < (2 : ℚ) ^ (binade q + 1) := by
  have h := Int.lt_zpow_succ_log_self (b := 2) (by norm_num) |q|
  have hle : Int.log 2 |q| + 1 ≤ binade q + 1 := by
    unfold binade
    have := le_max_left (Int.log 2 |q|) (-1022)
    omega
  have h2 : (2 : ℚ) ^ (Int.log 2 |q| + 1) ≤ (2 : ℚ) ^ (binade q + 1) :=
    zpow_le_zpow_right₀ (by norm_num) hle
  have h' : |q| < (2 : ℚ) ^ (Int.log 2 |q| + 1) := by simpa using h
  exact lt_of_lt_of_le h' h2

/-- A value whose binade is above the lowest one is at least the lower end of its binade. -/
theorem binade_le (q : ℚ) (hq : q ≠ 0) (hb : -1022 < binade q) : (2 : ℚ) ^ binade q ≤ |q| := by
  have hpos : (0 : ℚ) < |q| := abs_pos.mpr hq
  have h := Int.zpow_log_le_self (b := 2) (by norm_num) hpos
  have he : binade q = Int.log 2 |q| := by
    unfold binade at hb ⊢
    rcases le_total (Int.log 2 |q|) (-1022) with h1 | h1
    · rw [max_eq_right h1] at hb
      omega
    · exact max_eq_left h1
  rw [he]
  simpa using h

/-- The binade grows with the magnitude. -/
theorem binade_mono (x y : ℚ) (hx : x ≠ 0) (h : |x| ≤ |y|) : binade x ≤ binade y := by
  unfold binade
  exact max_le_max (Int.log_mono_right (abs_pos.mpr hx) h) le_rfl

/-- The binade, the spacing and the nearest multiple of a negated value. -/
theorem nearest_neg (q : ℚ) : nearest (-q) = -nearest q := by
  have hb : binade (-q) = binade q := by unfold binade; rw [abs_neg]
  have hs : spacing (-q) = spacing q := by unfold spacing; rw [hb]
  unfold nearest
  rw [hs, neg_div, roundHalfEven_neg]
  push_cast
  ring

/-- The nearest multiple of a value that is at least 0 is at least 0. -/
theorem nearest_nonneg (q : ℚ) (hq : 0 ≤ q) : 0 ≤ nearest q := by
  unfold nearest
  have hn : 0 ≤ roundHalfEven (q / spacing q) :=
    roundHalfEven_nonneg _ (div_nonneg hq (spacing_pos q).le)
  exact mul_nonneg (by exact_mod_cast hn) (spacing_pos q).le

/-- The nearest multiple of a positive value is at most the upper end of its binade. -/
theorem nearest_le_binade_succ (z : ℚ) (hz : 0 < z) : nearest z ≤ (2 : ℚ) ^ (binade z + 1) := by
  have hlt : z < (2 : ℚ) ^ (binade z + 1) := by
    have := lt_binade_succ z
    rwa [abs_of_pos hz] at this
  have hu := spacing_pos z
  have hsplit : (2 : ℚ) ^ (binade z + 1) = ((2 ^ 53 : ℤ) : ℚ) * spacing z := by
    unfold spacing
    have : binade z + 1 = 53 + (binade z - 52) := by ring
    rw [this, zpow_add₀ (by norm_num)]
    norm_num
  have hdiv : z / spacing z ≤ ((2 ^ 53 : ℤ) : ℚ) := by
    rw [div_le_iff₀ hu, ← hsplit]
    exact hlt.le
  have hr : roundHalfEven (z / spacing z) ≤ 2 ^ 53 := by
    have := roundHalfEven_mono _ _ hdiv
    rwa [roundHalfEven_intCast] at this
  unfold nearest
  rw [hsplit]
  exact mul_le_mul_of_nonneg_right (by exact_mod_cast hr) hu.le

/-- The nearest multiple of a positive value above the lowest binade is at least the lower end
of its binade. -/
theorem binade_le_nearest (y : ℚ) (hy : 0 < y) (hb : -1022 < binade y) :
    (2 : ℚ) ^ binade y ≤ nearest y := by
  have hle : (2 : ℚ) ^ binade y ≤ y := by
    have := binade_le y hy.ne' hb
    rwa [abs_of_pos hy] at this
  have hu := spacing_pos y
  have hsplit : (2 : ℚ) ^ binade y = ((2 ^ 52 : ℤ) : ℚ) * spacing y := by
    unfold spacing
    have : binade y = 52 + (binade y - 52) := by ring
    nth_rewrite 1 [this]
    rw [zpow_add₀ (by norm_num)]
    norm_num
  have hdiv : ((2 ^ 52 : ℤ) : ℚ) ≤ y / spacing y := by
    rw [le_div_iff₀ hu, ← hsplit]
    exact hle
  have hr : 2 ^ 52 ≤ roundHalfEven (y / spacing y) := by
    have := roundHalfEven_mono _ _ hdiv
    rwa [roundHalfEven_intCast] at this
  unfold nearest
  rw [hsplit]
  exact mul_le_mul_of_nonneg_right (by exact_mod_cast hr) hu.le

/-- Rounding does not pass a multiple of the spacing from below: a positive value that is its
own nearest multiple stays at most the nearest multiple of every value above it. -/
theorem le_nearest_of_le (a y : ℚ) (ha : 0 < a) (hay : a ≤ y) (hA : nearest a = a) :
    a ≤ nearest y := by
  have hy : 0 < y := lt_of_lt_of_le ha hay
  have hbm : binade a ≤ binade y :=
    binade_mono a y ha.ne' (by rw [abs_of_pos ha, abs_of_pos hy]; exact hay)
  rcases lt_or_eq_of_le hbm with hlt | heq
  · have h1 : a < (2 : ℚ) ^ (binade a + 1) := by
      have := lt_binade_succ a
      rwa [abs_of_pos ha] at this
    have h2 : (2 : ℚ) ^ (binade a + 1) ≤ (2 : ℚ) ^ binade y :=
      zpow_le_zpow_right₀ (by norm_num) (by omega)
    have hlow : -1022 < binade y := by
      have : -1022 ≤ binade a := by unfold binade; exact le_max_right _ _
      omega
    have h3 := binade_le_nearest y hy hlow
    linarith
  · have hs : spacing y = spacing a := by unfold spacing; rw [heq]
    have hu := spacing_pos a
    have hA' : ((roundHalfEven (a / spacing a) : ℤ) : ℚ) = a / spacing a := by
      have : (roundHalfEven (a / spacing a) : ℚ) * spacing a = a := hA
      rw [eq_div_iff hu.ne']
      exact this
    have hdiv : a / spacing a ≤ y / spacing a := div_le_div_of_nonneg_right hay hu.le
    have hr : roundHalfEven (a / spacing a) ≤ roundHalfEven (y / spacing a) := by
      have := roundHalfEven_mono _ _ hdiv
      rw [← hA', roundHalfEven_intCast] at this
      rw [← hA'] at hdiv
      have h2 := roundHalfEven_mono _ _ hdiv
      rwa [roundHalfEven_intCast] at h2
    have hfin : nearest y = (roundHalfEven (y / spacing a) : ℚ) * spacing a := by
      unfold nearest
      rw [hs]
    rw [hfin]
    calc a = (roundHalfEven (a / spacing a) : ℚ) * spacing a := hA.symm
      _ ≤ (roundHalfEven (y / spacing a) : ℚ) * spacing a :=
        mul_le_mul_of_nonneg_right (by exact_mod_cast hr) hu.le

/-- Rounding does not pass a multiple of the spacing from above. -/
theorem nearest_le_of_le (z A : ℚ) (hz : 0 < z) (hzA : z ≤ A) (hA : nearest A = A) :
    nearest z ≤ A := by
  have hApos : 0 < A := lt_of_lt_of_le hz hzA
  have hbm : binade z ≤ binade A :=
    binade_mono z A hz.ne' (by rw [abs_of_pos hz, abs_of_pos hApos]; exact hzA)
  rcases lt_or_eq_of_le hbm with hlt | heq
  · have h1 := nearest_le_binade_succ z hz
    have h2 : (2 : ℚ) ^ (binade z + 1) ≤ (2 : ℚ) ^ binade A :=
      zpow_le_zpow_right₀ (by norm_num) (by omega)
    have hlow : -1022 < binade A := by
      have : -1022 ≤ binade z := by unfold binade; exact le_max_right _ _
      omega
    have h3 : (2 : ℚ) ^ binade A ≤ A := by
      have := binade_le A hApos.ne' hlow
      rwa [abs_of_pos hApos] at this
    linarith
  · have hs : spacing z = spacing A := by unfold spacing; rw [heq]
    have hu := spacing_pos A
    have hA' : ((roundHalfEven (A / spacing A) : ℤ) : ℚ) = A / spacing A := by
      have : (roundHalfEven (A / spacing A) : ℚ) * spacing A = A := hA
      rw [eq_div_iff hu.ne']
      exact this
    have hdiv : z / spacing A ≤ A / spacing A := div_le_div_of_nonneg_right hzA hu.le
    have hr : roundHalfEven (z / spacing A) ≤ roundHalfEven (A / spacing A) := by
      rw [← hA'] at hdiv
      have h2 := roundHalfEven_mono _ _ hdiv
      rwa [roundHalfEven_intCast] at h2
    have hfin : nearest z = (roundHalfEven (z / spacing A) : ℚ) * spacing A := by
      unfold nearest
      rw [hs]
    rw [hfin]
    calc (roundHalfEven (z / spacing A) : ℚ) * spacing A
        ≤ (roundHalfEven (A / spacing A) : ℚ) * spacing A :=
          mul_le_mul_of_nonneg_right (by exact_mod_cast hr) hu.le
      _ = A := hA

/-- A double stays at most the nearest multiple of every value above it, whatever the signs. -/
theorem double_le_nearest (a y : ℚ) (hay : a ≤ y) (hA : nearest a = a) : a ≤ nearest y := by
  rcases lt_trichotomy 0 a with ha | ha | ha
  · exact le_nearest_of_le a y ha hay hA
  · rw [← ha] at hay ⊢
    exact nearest_nonneg y hay
  · rcases le_or_lt 0 y with hy | hy
    · exact le_trans ha.le (nearest_nonneg y hy)
    · have h := nearest_le_of_le (-y) (-a) (by linarith) (by linarith)
        (by rw [nearest_neg, hA])
      rw [nearest_neg] at h
      linarith

/-- What it says of a value that rounding leaves it as it is. -/
theorem roundDouble_fixed (a : ℚ) (ha : roundDouble a = JSNum.fin a) :
    nearest a = a ∧ |a| < (2 : ℚ) ^ (1024 : ℤ) := by
  unfold roundDouble at ha
  by_cases hbig : (2 : ℚ) ^ (1024 : ℤ) ≤ |nearest a|
  · rw [if_pos hbig] at ha
    split_ifs at ha
  · rw [if_neg hbig] at ha
    have h : nearest a = a := by injection ha
    rw [h] at hbig
    exact ⟨h, not_le.mp hbig⟩

/-- Rounding is monotone at doubles: the double nearest a value that is at least the double
`a` is not below `a`. -/
theorem roundDouble_ge (a y : ℚ) (ha : roundDouble a = JSNum.fin a) (hay : a ≤ y) :
    jsLt (roundDouble y) (JSNum.fin a) = false := by
  obtain ⟨hA, hfin⟩ := roundDouble_fixed a ha
  have hle := double_le_nearest a y hay hA
  unfold roundDouble
  by_cases hbig : (2 : ℚ) ^ (1024 : ℤ) ≤ |nearest y|
  · rw [if_pos hbig]
    by_cases hy : 0 < y
    · rw [if_pos hy]
      rfl
    · exfalso
      have hy0 : y ≤ 0 := not_lt.mp hy
      have hn : nearest y ≤ 0 := by
        have := nearest_nonneg (-y) (by linarith)
        rw [nearest_neg] at this
        linarith
      rw [abs_of_nonpos hn] at hbig
      have ha0 : a ≤ 0 := le_trans hay hy0
      rw [abs_of_nonpos ha0] at hfin
      linarith
  · rw [if_neg hbig]
    simp only [jsLt, decide_eq_false_iff_not, not_lt]
    exact hle

/-- The amount typed as 9.9 reaches the engine as the double nearest 9.9. -/
theorem parseFloat_nine_point_nine :
    parseFloat (99 / 10) = JSNum.fin (5573204538870989 / 562949953421312) := by
  unfold parseFloat
  have h := roundDouble_eval (99 / 10) 3 5573204538870989
    (by norm_num [abs_of_nonneg]) (by norm_num [abs_of_nonneg]) (by norm_num)
    (by
      have hx : ((99 / 10 : ℚ) / 2 ^ ((3 : ℤ) - 52)) = 5573204538870988 + 4 / 5 := by
        norm_num
      have hfl : ⌊(5573204538870988 + 4 / 5 : ℚ)⌋ = 5573204538870988 := by
        rw [Int.floor_eq_iff]; constructor <;> norm_num
      rw [hx]
      unfold roundHalfEven
      rw [hfl]
      norm_num)
    (by norm_num [abs_of_nonneg])
  rw [h]
  norm_num

/-- The amount typed as 0.1 reaches the engine as the double nearest 0.1. -/
theorem parseFloat_point_one :
    parseFloat (1 / 10) = JSNum.fin (3602879701896397 / 36028797018963968) := by
  unfold parseFloat
  have h := roundDouble_eval (1 / 10) (-4) 7205759403792794
    (by norm_num [abs_of_nonneg]) (by norm_num [abs_of_nonneg]) (by norm_num)
    (by
      have hx : ((1 / 10 : ℚ) / 2 ^ ((-4 : ℤ) - 52)) = 7205759403792793 + 3 / 5 := by
        norm_num
      have hfl : ⌊(7205759403792793 + 3 / 5 : ℚ)⌋ = 7205759403792793 := by
        rw [Int.floor_eq_iff]; constructor <;> norm_num
      rw [hx]
      unfold roundHalfEven
      rw [hfl]
      norm_num)
    (by norm_num [abs_of_nonneg])
  rw [h]
  norm_num

/-- In doubles `10 - 9.9` is 0.09999999999999964 (`56294995342131 / 2^49`), which is below the
double nearest 0.1. -/
theorem ten_minus_nine_point_nine :
    jsSub (JSNum.fin 10) (parseFloat (99 / 10)) = JSNum.fin (56294995342131 / 562949953421312)
      ∧ jsLt (jsSub (JSNum.fin 10) (parseFloat (99 / 10))) (parseFloat (1 / 10)) = true := by
  have hsub : jsSub (JSNum.fin 10) (parseFloat (99 / 10))
      = JSNum.fin (56294995342131 / 562949953421312) := by
    rw [parseFloat_nine_point_nine, jsSub_fin,
      show (10 : ℚ) - 5573204538870989 / 562949953421312
        = 56294995342131 / 562949953421312 by norm_num]
    have h := roundDouble_eval (56294995342131 / 562949953421312) (-4) 7205759403792768
      (by norm_num [abs_of_nonneg]) (by norm_num [abs_of_nonneg]) (by norm_num)
      (by
        have hx : ((56294995342131 / 562949953421312 : ℚ) / 2 ^ ((-4 : ℤ) - 52))
            = ((7205759403792768 : ℤ) : ℚ) := by norm_num
        rw [hx, roundHalfEven_intCast])
      (by norm_num [abs_of_nonneg])
    rw [h]
    norm_num
  refine ⟨hsub, ?_⟩
  rw [hsub, parseFloat_point_one]
  simp only [jsLt, decide_eq_true_eq]
  norm_num

/-- An exact result that reaches `2^1024` overflows to `Infinity`. -/
theorem roundDouble_overflow (q : ℚ) (hq : (2 : ℚ) ^ (1024 : ℤ) ≤ q) :
    roundDouble q = JSNum.posInf := by
  have hpos : (0 : ℚ) < 2 ^ (1024 : ℤ) := by positivity
  have hfix : nearest ((2 : ℚ) ^ (1024 : ℤ)) = (2 : ℚ) ^ (1024 : ℤ) := by
    have hb : binade ((2 : ℚ) ^ (1024 : ℤ)) = 1024 :=
      binade_eq _ 1024 (by rw [abs_of_pos hpos])
        (by rw [abs_of_pos hpos]; exact zpow_lt_zpow_right₀ (by norm_num) (by norm_num))
        (by norm_num)
    unfold nearest spacing
    rw [hb]
    have hx : ((2 : ℚ) ^ (1024 : ℤ)) / 2 ^ ((1024 : ℤ) - 52) = ((2 ^ 52 : ℤ) : ℚ) := by
      rw [← zpow_sub₀ (by norm_num)]
      norm_num
    rw [hx, roundHalfEven_intCast]
    have : (1024 : ℤ) = 52 + (1024 - 52) := by norm_num
    nth_rewrite 2 [this]
    rw [zpow_add₀ (by norm_num)]
    norm_num
  have hle := le_nearest_of_le _ q hpos hq hfix
  have hq0 : 0 < q := lt_of_lt_of_le hpos hq
  unfold roundDouble
  rw [if_pos (le_trans hle (le_abs_self _)), if_pos hq0]

/-- The value `x || 0` of a stored finite balance is that balance. -/
theorem orZero_fin (q : ℚ) : orZero (some (JSNum.fin q)) = JSNum.fin q := by
  by_cases hz : q = 0
  · simp [orZero, hz]
  · simp [orZero, hz]

/-- A stored balance sits in a wallet the store holds. -/
theorem balance_eq_some (w : Wallets) (acct cat : String) (v : JSNum)
    (h : balance w acct cat = some v) : ∃ wl, w acct = some wl ∧ wl cat = some v := by
  unfold balance at h
  cases hw : w acct with
  | none => simp [hw] at h
  | some wl => exact ⟨wl, rfl, by simpa [hw] using h⟩

/-! ### The engine -/


/-- A record put on the log leaves the wallets alone. -/
theorem recordTransaction_wallets (env : Env) (s : State) (x y : String) (a : JSNum)
    (c st d : String) : (recordTransaction env s x y a c st d).wallets = s.wallets := rfl

/-- A stored finite balance below a finite amount stops the transfer at rule 1. -/
theorem transfer_insufficient (env : Env) (s : State) (senderId receiverId c : String)
    (sw : Wallet) (b a : ℚ) (hw : s.wallets senderId = some sw)
    (hb : sw c = some (JSNum.fin b)) (hlt : b < a) :
    Transfer env s senderId receiverId (JSNum.fin a) c
      = Outcome.done (recordTransaction env s senderId receiverId (JSNum.fin a) c
          "FAILED" "Insufficient Funds in Category") := by
  simp [Transfer, executeTransaction, hw, hb, toNumber, jsLt, hlt]

/-! ## Claims -/

/-- C1 (scenario A), evaluated on the code: in beneficiary capacity `ben_1`, holding 150 FOOD,
pays 100 FOOD to `merch_2`, the verified merchant authorized for FOOD. The call records
FAILED with "Category Mismatch: Merchant is FOOD" and no balance moves: rule 3 compares the
merchant's catalog key `FOOD` with the category identifier `cat_food`. -/
theorem scenarioA_is_rejected :
    (Transfer (envOf ben_1) initialState "ben_1" "merch_2" (JSNum.fin 100) FOOD_ID).newest
        = some ("FAILED", "Category Mismatch: Merchant is FOOD")
      ∧ (Transfer (envOf ben_1) initialState "ben_1" "merch_2" (JSNum.fin 100) FOOD_ID).state?.map
          (fun s => (balance s.wallets "ben_1" FOOD_ID, balance s.wallets "merch_2" GENERAL_ID))
        = some (some (JSNum.fin 150), some (JSNum.fin 0)) := by
  constructor <;> rfl

/-- C2, evaluated on the code: `donor_1`, whose wallet holds no `cat_food` entry, sends
100 `cat_food` to `merch_2` outside beneficiary capacity. The missing balance reads as
`undefined`, `undefined < 100` is false, and the call records SUCCESS: `merch_2` is credited
100 unrestricted and the sender's `cat_food` balance becomes `NaN`. -/
theorem missing_entry_passes_funds_check :
    (Transfer (envOf donor_1) initialState "donor_1" "merch_2" (JSNum.fin 100) FOOD_ID).newest
        = some ("SUCCESS", "Smart Contract Verified")
      ∧ balance initialState.wallets "donor_1" FOOD_ID = none
      ∧ (Transfer (envOf donor_1) initialState "donor_1" "merch_2" (JSNum.fin 100)
            FOOD_ID).state?.map
          (fun s => (balance s.wallets "donor_1" FOOD_ID, balance s.wallets "merch_2" GENERAL_ID))
        = some (some JSNum.nan, some (JSNum.fin 100)) := by
  refine ⟨rfl, rfl, ?_⟩
  have h : (Transfer (envOf donor_1) initialState "donor_1" "merch_2" (JSNum.fin 100)
            FOOD_ID).state?.map
          (fun s => (balance s.wallets "donor_1" FOOD_ID, balance s.wallets "merch_2" GENERAL_ID))
        = some (some JSNum.nan, some (jsAdd (JSNum.fin 0) (JSNum.fin 100))) := rfl
  rw [h, jsAdd_exact 0 100 100 100 (by norm_num) (by norm_num) (by norm_num)]

/-- C3: in beneficiary capacity, once the funds check is passed and the receiver is a
MERCHANT, a category other than `cat_gen` that differs from the merchant's category ends the
call with one FAILED record whose reason is "Category Mismatch: Merchant is " followed by the
merchant's category; the wallets are untouched and the merchant's `verified` flag is not read. -/
theorem category_mismatch_is_rejected (env : Env) (s : State) (senderId receiverId c : String)
    (a : JSNum) (sw : Wallet) (r : User)
    (hcap : env.currentUser.role = "BENEFICIARY")
    (hw : s.wallets senderId = some sw)
    (hfunds : jsLt (toNumber (sw c)) a = false)
    (hr : findUser env.users receiverId = some r)
    (hrole : r.role = "MERCHANT")
    (hc : c ≠ GENERAL_ID)
    (hmis : r.category ≠ some c) :
    ∃ s' tx, (Transfer env s senderId receiverId a c).state? = some s'
      ∧ s'.wallets = s.wallets
      ∧ s'.transactions = tx :: s.transactions
      ∧ tx.status = "FAILED"
      ∧ tx.details = "Category Mismatch: Merchant is " ++ template r.category := by
  refine ⟨recordTransaction env s senderId receiverId a c "FAILED"
    ("Category Mismatch: Merchant is " ++ template r.category), _, ?_, rfl, rfl, rfl, rfl⟩
  simp only [Transfer, executeTransaction, hw, hfunds, hcap, hr, hrole]
  cases hl : categoryLabel c <;> simp [Outcome.state?, hc, hmis]

/-- Scenario C: 200 FOOD held, 50 FOOD sent to the SHELTER merchant `merch_3`. -/
theorem category_mismatch_is_rejected_witness :
    ∃ s' tx, (Transfer (envOf ben_1) scenarioC "ben_1" "merch_3" (JSNum.fin 50) FOOD_ID).state?
        = some s'
      ∧ s'.wallets = scenarioC.wallets
      ∧ s'.transactions = tx :: scenarioC.transactions
      ∧ tx.status = "FAILED"
      ∧ tx.details = "Category Mismatch: Merchant is SHELTER" :=
  category_mismatch_is_rejected (envOf ben_1) scenarioC "ben_1" "merch_3" FOOD_ID (JSNum.fin 50)
    (setBalance emptyWallet FOOD_ID (JSNum.fin 200))
    { id := "merch_3", name := "SafeStay Supplies", role := "MERCHANT", verified := true,
      category := some "SHELTER" }
    rfl rfl rfl rfl rfl (by decide) (by decide)

/-- C4: in beneficiary capacity, once the funds check, the receiver-role check and the
category check are passed, a merchant with `verified = false` ends the call with one FAILED
record whose reason is exactly "Merchant Not Verified"; the wallets are untouched. -/
theorem unverified_merchant_is_rejected (env : Env) (s : State)
    (senderId receiverId c : String) (a : JSNum) (sw : Wallet) (r : User)
    (hcap : env.currentUser.role = "BENEFICIARY")
    (hw : s.wallets senderId = some sw)
    (hfunds : jsLt (toNumber (sw c)) a = false)
    (hr : findUser env.users receiverId = some r)
    (hrole : r.role = "MERCHANT")
    (hcat : r.category = some c ∨ c = GENERAL_ID)
    (hver : r.verified = false) :
    ∃ s' tx, Transfer env s senderId receiverId a c = Outcome.done s'
      ∧ s'.wallets = s.wallets
      ∧ s'.transactions = tx :: s.transactions
      ∧ tx.status = "FAILED"
      ∧ tx.details = "Merchant Not Verified" := by
  refine ⟨recordTransaction env s senderId receiverId a c "FAILED" "Merchant Not Verified",
    _, ?_, rfl, rfl, rfl, rfl⟩
  have hno : ¬ (r.category ≠ some c ∧ c ≠ GENERAL_ID) := by
    rintro ⟨h1, h2⟩
    rcases hcat with h | h
    · exact h1 h
    · exact h2 h
  simp only [Transfer, executeTransaction, hw, hfunds, hcap, hr, hrole]
  simp [hno, hver]

/-- Scenario D: `ben_1`, holding 10 unrestricted, sends 10 unrestricted to the unverified
merchant `merch_4`. -/
theorem unverified_merchant_is_rejected_witness :
    ∃ s' tx, Transfer (envOf ben_1) initialState "ben_1" "merch_4" (JSNum.fin 10) GENERAL_ID
        = Outcome.done s'
      ∧ s'.wallets = initialState.wallets
      ∧ s'.transactions = tx :: initialState.transactions
      ∧ tx.status = "FAILED"
      ∧ tx.details = "Merchant Not Verified" :=
  unverified_merchant_is_rejected (envOf ben_1) initialState "ben_1" "merch_4" GENERAL_ID
    (JSNum.fin 10)
    (fun c =>
      if c = FOOD_ID then some (JSNum.fin 150) else if c = MEDICAL_ID then some (JSNum.fin 50)
      else if c = SHELTER_ID then some (JSNum.fin 0) else if c = GENERAL_ID then some (JSNum.fin 10)
      else none)
    { id := "merch_4", name := "Unauthorized Vendor", role := "MERCHANT", verified := false,
      category := some "GENERAL" }
    rfl rfl rfl rfl rfl (Or.inr rfl) rfl

/-- C5: in beneficiary capacity, once the funds check is passed, a receiver that is not in the
registry or whose role is not MERCHANT ends the call with one FAILED record whose reason is
exactly "Invalid Receiver"; the wallets are untouched, and neither the category nor the
receiver's `verified` flag is read. -/
theorem non_merchant_receiver_is_rejected (env : Env) (s : State)
    (senderId receiverId c : String) (a : JSNum) (sw : Wallet)
    (hcap : env.currentUser.role = "BENEFICIARY")
    (hw : s.wallets senderId = some sw)
    (hfunds : jsLt (toNumber (sw c)) a = false)
    (hrecv : findUser env.users receiverId = none
      ∨ ∃ r, findUser env.users receiverId = some r ∧ r.role ≠ "MERCHANT") :
    ∃ s' tx, Transfer env s senderId receiverId a c = Outcome.done s'
      ∧ s'.wallets = s.wallets
      ∧ s'.transactions = tx :: s.transactions
      ∧ tx.status = "FAILED"
      ∧ tx.details = "Invalid Receiver" := by
  refine ⟨recordTransaction env s senderId receiverId a c "FAILED" "Invalid Receiver",
    _, ?_, rfl, rfl, rfl, rfl⟩
  simp only [Transfer, executeTransaction, hw, hfunds, hcap]
  rcases hrecv with h | ⟨r, h, hrole⟩
  · simp [h]
  · simp [h, hrole]

/-- Two instances: `ben_1` sends 10 unrestricted to the beneficiary `ben_2`, and 100 FOOD to
an identifier the registry does not hold. -/
theorem non_merchant_receiver_is_rejected_witness :
    (∃ s' tx, Transfer (envOf ben_1) initialState "ben_1" "ben_2" (JSNum.fin 10) GENERAL_ID
        = Outcome.done s'
      ∧ s'.wallets = initialState.wallets
      ∧ s'.transactions = tx :: initialState.transactions
      ∧ tx.status = "FAILED"
      ∧ tx.details = "Invalid Receiver")
    ∧ (∃ s' tx, Transfer (envOf ben_1) initialState "ben_1" "nobody" (JSNum.fin 100) FOOD_ID
        = Outcome.done s'
      ∧ s'.wallets = initialState.wallets
      ∧ s'.transactions = tx :: initialState.transactions
      ∧ tx.status = "FAILED"
      ∧ tx.details = "Invalid Receiver") :=
  ⟨non_merchant_receiver_is_rejected (envOf ben_1) initialState "ben_1" "ben_2" GENERAL_ID
      (JSNum.fin 10)
      (fun c =>
        if c = FOOD_ID then some (JSNum.fin 150) else if c = MEDICAL_ID then some (JSNum.fin 50)
        else if c = SHELTER_ID then some (JSNum.fin 0)
        else if c = GENERAL_ID then some (JSNum.fin 10) else none)
      rfl rfl rfl
      (Or.inr ⟨{ id := "ben_2", name := "Ahmed Khan", role := "BENEFICIARY", verified := true },
        rfl, by decide⟩),
   non_merchant_receiver_is_rejected (envOf ben_1) initialState "ben_1" "nobody" FOOD_ID
      (JSNum.fin 100)
      (fun c =>
        if c = FOOD_ID then some (JSNum.fin 150) else if c = MEDICAL_ID then some (JSNum.fin 50)
        else if c = SHELTER_ID then some (JSNum.fin 0)
        else if c = GENERAL_ID then some (JSNum.fin 10) else none)
      rfl rfl rfl (Or.inl rfl)⟩

/-- Every call that leaves a state ends in one of three shapes: nothing written, one FAILED
record on an untouched store, or the updater's store with one SUCCESS record. -/
theorem executeTransaction_shape (env : Env) (wallets : Wallets) (prev : State)
    (senderId receiverId : String) (a : JSNum) (c : String) (s' : State)
    (h : (executeTransaction env wallets prev senderId receiverId a c).state? = some s') :
    s' = prev
      ∨ (∃ d, s' = recordTransaction env prev senderId receiverId a c "FAILED" d)
      ∨ (∃ w, transferUpdate prev.wallets senderId receiverId a c = some w
          ∧ s' = recordTransaction env { prev with wallets := w } senderId receiverId a c
              "SUCCESS" "Smart Contract Verified") := by
  have key : ∀ o : Outcome,
      o = (match transferUpdate prev.wallets senderId receiverId a c with
        | none => Outcome.crashed
        | some w =>
          match findUser env.users receiverId with
          | none => Outcome.raised (recordTransaction env { prev with wallets := w } senderId
              receiverId a c "SUCCESS" "Smart Contract Verified")
          | some _ => Outcome.done (recordTransaction env { prev with wallets := w } senderId
              receiverId a c "SUCCESS" "Smart Contract Verified")) →
      o.state? = some s' →
      ∃ w, transferUpdate prev.wallets senderId receiverId a c = some w
          ∧ s' = recordTransaction env { prev with wallets := w } senderId receiverId a c
              "SUCCESS" "Smart Contract Verified" := by
    intro o ho hs
    subst ho
    cases hu : transferUpdate prev.wallets senderId receiverId a c with
    | none => simp [hu, Outcome.state?] at hs
    | some w =>
      refine ⟨w, rfl, ?_⟩
      cases hf : findUser env.users receiverId <;>
        simp [hu, hf, Outcome.state?] at hs <;> exact hs.symm
  unfold executeTransaction at h
  cases hw : wallets senderId with
  | none =>
    simp [hw, Outcome.state?] at h
    exact Or.inl h.symm
  | some sw =>
    simp only [hw] at h
    by_cases hf : jsLt (toNumber (sw c)) a = true
    · simp [hf, Outcome.state?] at h
      exact Or.inr (Or.inl ⟨_, h.symm⟩)
    · by_cases hcap : env.currentUser.role = "BENEFICIARY"
      · cases hr : findUser env.users receiverId with
        | none =>
          simp [hf, hcap, hr, Outcome.state?] at h
          exact Or.inr (Or.inl ⟨_, h.symm⟩)
        | some r =>
          by_cases hrole : r.role = "MERCHANT"
          · by_cases hmis : r.category ≠ some c ∧ c ≠ GENERAL_ID
            · cases hl : categoryLabel c <;>
                simp [hf, hcap, hr, hrole, hmis, hl, Outcome.state?] at h <;>
                exact Or.inr (Or.inl ⟨_, h.symm⟩)
            · by_cases hver : r.verified = false
              · simp [hf, hcap, hr, hrole, hmis, hver, Outcome.state?] at h
                exact Or.inr (Or.inl ⟨_, h.symm⟩)
              · simp only [hf, hcap, hr, hrole, hmis, hver] at h
                exact Or.inr (Or.inr (key _ (by simp [hr]) h))
          · simp [hf, hcap, hr, hrole, Outcome.state?] at h
            exact Or.inr (Or.inl ⟨_, h.symm⟩)
      · simp only [hf, hcap] at h
        exact Or.inr (Or.inr (key _ (by simp) h))

/-- Once the rules are passed and both parties hold a wallet, the call runs to its end with
the updater's store and one SUCCESS record. -/
theorem executeTransaction_applies (env : Env) (s : State) (senderId receiverId c : String)
    (a : JSNum) (sw rw : Wallet) (r : User)
    (hw : s.wallets senderId = some sw)
    (hfunds : jsLt (toNumber (sw c)) a = false)
    (hr : findUser env.users receiverId = some r)
    (hrw : s.wallets receiverId = some rw)
    (hrules : env.currentUser.role = "BENEFICIARY" →
      r.role = "MERCHANT" ∧ (r.category = some c ∨ c = GENERAL_ID) ∧ r.verified = true) :
    ∃ w, transferUpdate s.wallets senderId receiverId a c = some w
      ∧ Transfer env s senderId receiverId a c
        = Outcome.done (recordTransaction env { s with wallets := w } senderId receiverId a c
            "SUCCESS" "Smart Contract Verified") := by
  have hu : ∃ w, transferUpdate s.wallets senderId receiverId a c = some w := by
    simp [transferUpdate, hw, hrw]
  obtain ⟨w, hu⟩ := hu
  refine ⟨w, hu, ?_⟩
  by_cases hcap : env.currentUser.role = "BENEFICIARY"
  · obtain ⟨hrole, hcat, hver⟩ := hrules hcap
    have hno : ¬ (r.category ≠ some c ∧ c ≠ GENERAL_ID) := by
      rintro ⟨h1, h2⟩
      rcases hcat with h | h
      · exact h1 h
      · exact h2 h
    simp only [Transfer, executeTransaction, hw, hfunds, hcap, hr, hrole, hu]
    simp [hno, hver]
  · simp only [Transfer, executeTransaction, hw, hfunds, hcap, hr, hu]
    simp

/-- C6: in beneficiary capacity, a positive amount drawn from `cat_gen` with a sufficient
balance and sent to a verified MERCHANT, whatever the merchant's category, ends in SUCCESS:
the call runs to its end, applies the updater and adds one SUCCESS record. The receiver holds
a wallet, as every merchant of the program does. -/
theorem unrestricted_funds_reach_any_verified_merchant (env : Env) (s : State)
    (senderId receiverId : String) (a b : ℚ) (sw rw : Wallet) (r : User)
    (hcap : env.currentUser.role = "BENEFICIARY")
    (hw : s.wallets senderId = some sw)
    (hb : sw GENERAL_ID = some (JSNum.fin b))
    (hpos : 0 < a) (hle : a ≤ b)
    (hr : findUser env.users receiverId = some r)
    (hrole : r.role = "MERCHANT")
    (hver : r.verified = true)
    (hrw : s.wallets receiverId = some rw) :
    ∃ s' tx, Transfer env s senderId receiverId (JSNum.fin a) GENERAL_ID = Outcome.done s'
      ∧ transferUpdate s.wallets senderId receiverId (JSNum.fin a) GENERAL_ID = some s'.wallets
      ∧ s'.transactions = tx :: s.transactions
      ∧ tx.status = "SUCCESS"
      ∧ tx.details = "Smart Contract Verified" := by
  have hfunds : jsLt (toNumber (sw GENERAL_ID)) (JSNum.fin a) = false := by
    simp [hb, toNumber, jsLt, hle]
  obtain ⟨w, hu, hT⟩ := executeTransaction_applies env s senderId receiverId GENERAL_ID
    (JSNum.fin a) sw rw r hw hfunds hr hrw (fun _ => ⟨hrole, Or.inr rfl, hver⟩)
  have _ := hpos
  have _ := hcap
  exact ⟨_, _, hT, hu, rfl, rfl, rfl⟩

/-- An instance: `ben_1`, holding 10 unrestricted, pays 10 unrestricted to `merch_1`, the
verified merchant whose category is MEDICAL. -/
theorem unrestricted_funds_reach_any_verified_merchant_witness :
    ∃ s' tx, Transfer (envOf ben_1) initialState "ben_1" "merch_1" (JSNum.fin 10) GENERAL_ID
        = Outcome.done s'
      ∧ transferUpdate initialState.wallets "ben_1" "merch_1" (JSNum.fin 10) GENERAL_ID
        = some s'.wallets
      ∧ s'.transactions = tx :: initialState.transactions
      ∧ tx.status = "SUCCESS"
      ∧ tx.details = "Smart Contract Verified" :=
  unrestricted_funds_reach_any_verified_merchant (envOf ben_1) initialState "ben_1" "merch_1"
    10 10
    (fun c =>
      if c = FOOD_ID then some (JSNum.fin 150) else if c = MEDICAL_ID then some (JSNum.fin 50)
      else if c = SHELTER_ID then some (JSNum.fin 0) else if c = GENERAL_ID then some (JSNum.fin 10)
      else none)
    (fun c => if c = GENERAL_ID then some (JSNum.fin 0) else none)
    { id := "merch_1", name := "Central Pharmacy", role := "MERCHANT", verified := true,
      category := some "MEDICAL" }
    rfl rfl rfl (by norm_num) (by norm_num) rfl rfl rfl rfl

/-- C7, evaluated on the code: outside beneficiary capacity `donor_1`, holding 5000000
unrestricted, sends 100 unrestricted to `admin_1`, an account of the registry that holds no
wallet. The funds check is passed and rules 2-4 are skipped, but the updater reads
`prev['admin_1']['cat_gen']` on `undefined` and raises: no SUCCESS is reached. -/
theorem transfer_to_walletless_account_crashes :
    findUser INITIAL_USERS "admin_1" = some admin_1
      ∧ balance initialState.wallets "donor_1" GENERAL_ID = some (JSNum.fin 5000000)
      ∧ initialState.wallets "admin_1" = none
      ∧ Transfer (envOf donor_1) initialState "donor_1" "admin_1" (JSNum.fin 100) GENERAL_ID
        = Outcome.crashed :=
  ⟨rfl, rfl, rfl, rfl⟩

/-- The records put in front of a log by one `recordTransaction`. -/
theorem newRecords_recordTransaction (env : Env) (s : State) (w : Wallets) (x y : String)
    (a : JSNum) (c st d : String) :
    newRecords s (recordTransaction env { s with wallets := w } x y a c st d)
      = [{ hash := env.hash, timestamp := env.timestamp, fromName := displayName env.users x,
           toName := displayName env.users y, amount := a, category := c, status := st,
           details := d }] := by
  simp [newRecords, recordTransaction]

/-- C8: when a transfer adds a record with status FAILED, that record is the only one added
and the balance store after the call is the store before it. -/
theorem failed_transfer_changes_no_balance (env : Env) (s : State)
    (senderId receiverId : String) (a : JSNum) (c : String) (s' : State) (tx : Tx)
    (h : (Transfer env s senderId receiverId a c).state? = some s')
    (hmem : tx ∈ newRecords s s')
    (hst : tx.status = "FAILED") :
    s'.wallets = s.wallets ∧ s'.transactions = tx :: s.transactions := by
  rcases executeTransaction_shape env s.wallets s senderId receiverId a c s' h with
    h1 | ⟨d, h1⟩ | ⟨w, _, h1⟩
  · subst h1
    simp [newRecords] at hmem
  · subst h1
    have hn := newRecords_recordTransaction env s s.wallets senderId receiverId a c "FAILED" d
    rw [show ({ s with wallets := s.wallets } : State) = s from rfl] at hn
    rw [hn, List.mem_singleton] at hmem
    subst hmem
    exact ⟨rfl, rfl⟩
  · subst h1
    rw [newRecords_recordTransaction, List.mem_singleton] at hmem
    subst hmem
    simp at hst

/-- Scenario B: `ben_1`, holding 50 MEDICAL, sends 100 MEDICAL to `merch_1`. -/
theorem failed_transfer_changes_no_balance_witness :
    ((Transfer (envOf ben_1) initialState "ben_1" "merch_1" (JSNum.fin 100) MEDICAL_ID).state?
        = some scenarioB_after
      ∧ scenarioB_record ∈ newRecords initialState scenarioB_after
      ∧ scenarioB_record.status = "FAILED")
    ∧ scenarioB_after.wallets = initialState.wallets
    ∧ scenarioB_after.transactions = scenarioB_record :: initialState.transactions :=
  ⟨⟨rfl, by simp [newRecords, scenarioB_after, initialState], rfl⟩,
   failed_transfer_changes_no_balance (envOf ben_1) initialState "ben_1" "merch_1"
    (JSNum.fin 100) MEDICAL_ID scenarioB_after scenarioB_record
    rfl (by simp [newRecords, scenarioB_after, initialState]) rfl⟩

/-- What the updater writes when sender and receiver are two accounts: the sender's balance
at the category is lowered by the amount, the receiver's unrestricted balance (a missing
entry read as 0) is raised by it, and every other balance is kept. -/
theorem transferUpdate_effect (prev w : Wallets) (senderId receiverId c : String) (a : JSNum)
    (hu : transferUpdate prev senderId receiverId a c = some w)
    (hne : senderId ≠ receiverId) :
    balance w senderId c = some (jsSub (toNumber (balance prev senderId c)) a)
      ∧ balance w receiverId GENERAL_ID
          = some (jsAdd (orZero (balance prev receiverId GENERAL_ID)) a)
      ∧ ∀ x y, ¬ (x = senderId ∧ y = c) → ¬ (x = receiverId ∧ y = GENERAL_ID) →
          balance w x y = balance prev x y := by
  unfold transferUpdate at hu
  cases hs : prev senderId with
  | none => simp [hs] at hu
  | some sw =>
    cases hr : prev receiverId with
    | none => simp [hs, hr] at hu
    | some rw =>
      simp only [hs, hr, Option.some.injEq] at hu
      subst hu
      refine ⟨?_, ?_, ?_⟩
      · simp [balance, setWallet, setBalance, hne, hs]
      · simp [balance, setWallet, setBalance, hr]
      · intro x y h1 h2
        by_cases hxr : x = receiverId
        · subst hxr
          have hy : y ≠ GENERAL_ID := fun h => h2 ⟨rfl, h⟩
          simp [balance, setWallet, setBalance, hr, hy]
        · by_cases hxs : x = senderId
          · subst hxs
            have hy : y ≠ c := fun h => h1 ⟨rfl, h⟩
            simp [balance, setWallet, setBalance, hs, hxr, hy]
          · simp [balance, setWallet, setBalance, hxr, hxs]

/-- Between two different accounts holding finite balances, a transfer whose debit and credit
are computed exactly keeps the total of the sender's balance at the category and the
receiver's unrestricted balance. -/
theorem transferUpdate_conserves (prev w : Wallets) (senderId receiverId c : String)
    (a b g : ℚ)
    (hu : transferUpdate prev senderId receiverId (JSNum.fin a) c = some w)
    (hne : senderId ≠ receiverId)
    (hb : balance prev senderId c = some (JSNum.fin b))
    (hg : balance prev receiverId GENERAL_ID = some (JSNum.fin g))
    (hsub : jsSub (JSNum.fin b) (JSNum.fin a) = JSNum.fin (b - a))
    (hadd : jsAdd (orZero (some (JSNum.fin g))) (JSNum.fin a) = JSNum.fin (g + a)) :
    pairTotal w senderId c receiverId = pairTotal prev senderId c receiverId := by
  obtain ⟨h1, h2, _⟩ := transferUpdate_effect prev w senderId receiverId c (JSNum.fin a) hu hne
  simp only [pairTotal, h1, h2, hb, hg, toNumber, hsub, hadd, jsAdd_fin]
  congr 1
  ring

/-- C9, evaluated on the code: outside beneficiary capacity `ben_1` sends 100 FOOD to itself.
The call records SUCCESS, but in the updater the `[receiverId]` key overwrites the
`[senderId]` key: the FOOD balance stays at 150 and the unrestricted balance goes from 10
to 110, so one balance changes and 100 is credited that nobody was debited. -/
theorem self_transfer_skips_the_debit :
    (Transfer (envOf admin_1) initialState "ben_1" "ben_1" (JSNum.fin 100) FOOD_ID).newest
        = some ("SUCCESS", "Smart Contract Verified")
      ∧ (balance initialState.wallets "ben_1" FOOD_ID,
          balance initialState.wallets "ben_1" GENERAL_ID)
        = (some (JSNum.fin 150), some (JSNum.fin 10))
      ∧ (Transfer (envOf admin_1) initialState "ben_1" "ben_1" (JSNum.fin 100)
            FOOD_ID).state?.map
          (fun s => (balance s.wallets "ben_1" FOOD_ID, balance s.wallets "ben_1" GENERAL_ID))
        = some (some (JSNum.fin 150), some (JSNum.fin 110)) := by
  refine ⟨rfl, rfl, ?_⟩
  have h : (Transfer (envOf admin_1) initialState "ben_1" "ben_1" (JSNum.fin 100)
            FOOD_ID).state?.map
          (fun s => (balance s.wallets "ben_1" FOOD_ID, balance s.wallets "ben_1" GENERAL_ID))
        = some (some (JSNum.fin 150), some (jsAdd (JSNum.fin 10) (JSNum.fin 100))) := rfl
  rw [h, jsAdd_exact 10 100 110 110 (by norm_num) (by norm_num) (by norm_num)]

/-- C10, evaluated on the code: outside beneficiary capacity `donor_1` sends 100 unrestricted
to itself. The call records SUCCESS and the total of sender and receiver balances goes from
10000000 to 10000200: the debit is overwritten by the credit. -/
theorem self_transfer_breaks_conservation :
    (Transfer (envOf donor_1) initialState "donor_1" "donor_1" (JSNum.fin 100)
        GENERAL_ID).newest = some ("SUCCESS", "Smart Contract Verified")
      ∧ pairTotal initialState.wallets "donor_1" GENERAL_ID "donor_1" = JSNum.fin 10000000
      ∧ (Transfer (envOf donor_1) initialState "donor_1" "donor_1" (JSNum.fin 100)
            GENERAL_ID).state?.map (fun s => pairTotal s.wallets "donor_1" GENERAL_ID "donor_1")
        = some (JSNum.fin 10000200) := by
  refine ⟨rfl, ?_, ?_⟩
  · have h : pairTotal initialState.wallets "donor_1" GENERAL_ID "donor_1"
        = jsAdd (JSNum.fin 5000000) (JSNum.fin 5000000) := rfl
    rw [h, jsAdd_exact 5000000 5000000 10000000 10000000 (by norm_num) (by norm_num)
      (by norm_num)]
  · have h : (Transfer (envOf donor_1) initialState "donor_1" "donor_1" (JSNum.fin 100)
            GENERAL_ID).state?.map (fun s => pairTotal s.wallets "donor_1" GENERAL_ID "donor_1")
        = some (jsAdd (toNumber (some (jsAdd (JSNum.fin 5000000) (JSNum.fin 100))))
            (toNumber (some (jsAdd (JSNum.fin 5000000) (JSNum.fin 100))))) := rfl
    rw [h, toNumber_some,
      jsAdd_exact 5000000 100 5000100 5000100 (by norm_num) (by norm_num) (by norm_num),
      jsAdd_exact 5000100 5000100 10000200 10000200 (by norm_num) (by norm_num) (by norm_num)]

/-! ## Supporting facts -/

/-- The transfer updater removes no wallet. -/
theorem transferUpdate_keeps_wallets (prev w : Wallets) (senderId receiverId c : String)
    (a : JSNum) (hu : transferUpdate prev senderId receiverId a c = some w) (x : String)
    (hx : (prev x).isSome = true) : (w x).isSome = true := by
  unfold transferUpdate at hu
  cases hs : prev senderId with
  | none => simp [hs] at hu
  | some sw =>
    cases hr : prev receiverId with
    | none => simp [hs, hr] at hu
    | some rw =>
      simp only [hs, hr, Option.some.injEq] at hu
      subst hu
      simp only [setWallet]
      split_ifs <;> simp [hx]

/-- No transfer removes a wallet: an account that holds one before the call holds one in
every state the call leaves. -/
theorem executeTransaction_keeps_wallets (env : Env) (wallets : Wallets) (prev s' : State)
    (senderId receiverId : String) (a : JSNum) (c : String)
    (h : (executeTransaction env wallets prev senderId receiverId a c).state? = some s')
    (x : String) (hx : (prev.wallets x).isSome = true) : (s'.wallets x).isSome = true := by
  rcases executeTransaction_shape env wallets prev senderId receiverId a c s' h with
    h1 | ⟨d, h1⟩ | ⟨w, hu, h1⟩
  · subst h1; exact hx
  · subst h1; exact hx
  · subst h1
    exact transferUpdate_keeps_wallets prev.wallets w senderId receiverId c a hu x hx

/-- No allocation removes a wallet. -/
theorem handleAdminAllocation_keeps_wallets (env : Env) (prev s' : State)
    (beneficiaryId : String) (a : JSNum) (c : String)
    (h : (handleAdminAllocation env prev beneficiaryId a c).state? = some s')
    (x : String) (hx : (prev.wallets x).isSome = true) : (s'.wallets x).isSome = true := by
  unfold handleAdminAllocation at h
  cases hu : allocationUpdate prev.wallets beneficiaryId a c with
  | none => simp [hu, Outcome.state?] at h
  | some w =>
    simp only [hu, Outcome.state?, Option.some.injEq] at h
    subst h
    unfold allocationUpdate at hu
    cases hb : prev.wallets beneficiaryId with
    | none => simp [hb] at hu
    | some bw =>
      simp only [hb, Option.some.injEq] at hu
      subst hu
      simp only [recordTransaction_wallets, setWallet]
      split_ifs <;> simp [hx]

/-- With the program's registry, rule 3 refuses every payment a beneficiary draws from a
restricted category: the category of a merchant is a catalog key, never a category
identifier, so no such call adds a record that is not FAILED. -/
theorem restricted_payment_never_succeeds (env : Env) (s s' : State)
    (senderId receiverId : String) (a : JSNum) (c : String) (tx : Tx)
    (husers : env.users = INITIAL_USERS)
    (hcap : env.currentUser.role = "BENEFICIARY")
    (hc : c = FOOD_ID ∨ c = MEDICAL_ID ∨ c = SHELTER_ID)
    (h : (Transfer env s senderId receiverId a c).state? = some s')
    (hmem : tx ∈ newRecords s s') : tx.status = "FAILED" := by
  have hgen : c ≠ GENERAL_ID := by
    rcases hc with h | h | h <;> subst h <;> decide
  have hcat : ∀ r, findUser env.users receiverId = some r → r.category ≠ some c := by
    intro r hr
    have hm : r ∈ INITIAL_USERS := by
      rw [husers] at hr
      exact List.mem_of_find?_eq_some hr
    simp only [INITIAL_USERS, List.mem_cons, List.mem_singleton, List.not_mem_nil,
      or_false] at hm
    rcases hm with h | h | h | h | h | h | h | h <;> subst h <;>
      rcases hc with h | h | h <;> subst h <;> decide
  unfold Transfer executeTransaction at h
  cases hw : s.wallets senderId with
  | none =>
    simp [hw, Outcome.state?] at h
    subst h
    simp [newRecords] at hmem
  | some sw =>
    simp only [hw] at h
    by_cases hf : jsLt (toNumber (sw c)) a = true
    · simp [hf, Outcome.state?] at h
      subst h
      simp [newRecords, recordTransaction] at hmem
      subst hmem; rfl
    · cases hr : findUser env.users receiverId with
      | none =>
        simp [hf, hcap, hr, Outcome.state?] at h
        subst h
        simp [newRecords, recordTransaction] at hmem
        subst hmem; rfl
      | some r =>
        have hmis : r.category ≠ some c ∧ c ≠ GENERAL_ID := ⟨hcat r hr, hgen⟩
        by_cases hrole : r.role = "MERCHANT"
        · cases hl : categoryLabel c <;>
            simp [hf, hcap, hr, hrole, hmis, hl, Outcome.state?] at h <;>
            subst h <;>
            simp [newRecords, recordTransaction] at hmem <;>
            subst hmem <;> rfl
        · simp [hf, hcap, hr, hrole, Outcome.state?] at h
          subst h
          simp [newRecords, recordTransaction] at hmem
          subst hmem; rfl

/-- In every state the program can be in, every merchant of the registry holds a wallet. -/
theorem reachable_merchants_hold_wallets (s : State) (hs : Reachable s) (r : User)
    (hr : r ∈ INITIAL_USERS) (hrole : r.role = "MERCHANT") :
    (s.wallets r.id).isSome = true := by
  induction hs with
  | init =>
    simp only [INITIAL_USERS, List.mem_cons, List.mem_singleton, List.not_mem_nil,
      or_false] at hr
    rcases hr with h | h | h | h | h | h | h | h <;> subst h <;>
      first
        | rfl
        | exact absurd hrole (by decide)
  | transfer env s s' senderId receiverId a c _ _ _ h ih =>
    exact executeTransaction_keeps_wallets env s.wallets s s' senderId receiverId a c h r.id ih
  | allocate env s s' beneficiaryId a c _ _ _ h ih =>
    exact handleAdminAllocation_keeps_wallets env s s' beneficiaryId a c h r.id ih

/-- The unrestricted payment on the program itself: in every state the program can be in, a
covered amount drawn from `cat_gen` and paid to a verified merchant of `INITIAL_USERS` ends in
SUCCESS, whoever is acting. -/
theorem reachable_unrestricted_payment_succeeds (env : Env) (s : State)
    (senderId receiverId : String) (a b : ℚ) (r : User)
    (hs : Reachable s) (husers : env.users = INITIAL_USERS)
    (hb : balance s.wallets senderId GENERAL_ID = some (JSNum.fin b)) (hle : a ≤ b)
    (hr : findUser env.users receiverId = some r)
    (hrole : r.role = "MERCHANT") (hver : r.verified = true) :
    ∃ s' tx, Transfer env s senderId receiverId (JSNum.fin a) GENERAL_ID = Outcome.done s'
      ∧ s'.transactions = tx :: s.transactions
      ∧ tx.status = "SUCCESS" := by
  have hmem : r ∈ INITIAL_USERS := by
    rw [husers] at hr
    exact List.mem_of_find?_eq_some hr
  have hid : r.id = receiverId := by
    have := List.find?_some hr
    simpa using this
  have hrw := reachable_merchants_hold_wallets s hs r hmem hrole
  rw [hid] at hrw
  obtain ⟨rw, hrw⟩ := Option.isSome_iff_exists.mp hrw
  cases hw : s.wallets senderId with
  | none => simp [balance, hw] at hb
  | some sw =>
    have hb' : sw GENERAL_ID = some (JSNum.fin b) := by simpa [balance, hw] using hb
    have hfunds : jsLt (toNumber (sw GENERAL_ID)) (JSNum.fin a) = false := by
      simp [hb', toNumber, jsLt, hle]
    obtain ⟨w, _, hT⟩ := executeTransaction_applies env s senderId receiverId GENERAL_ID
      (JSNum.fin a) sw rw r hw hfunds hr hrw (fun _ => ⟨hrole, Or.inr rfl, hver⟩)
    exact ⟨_, _, hT, rfl, rfl⟩

/-! ## Second part: invariants, allocation, validation, the log, repeated and overlapping calls -/

/-- Every call that leaves a state either leaves the store alone or has passed the funds
check on its snapshot, passed rules 2-4 when the acting account is a beneficiary, and applied
the updater, adding the SUCCESS record. -/
theorem executeTransaction_cases (env : Env) (wallets : Wallets) (prev : State)
    (senderId receiverId : String) (a : JSNum) (c : String) (s' : State)
    (h : (executeTransaction env wallets prev senderId receiverId a c).state? = some s') :
    (s'.wallets = prev.wallets
        ∧ (s' = prev ∨ ∃ d, s' = recordTransaction env prev senderId receiverId a c "FAILED" d))
      ∨ (∃ sw w, wallets senderId = some sw
          ∧ jsLt (toNumber (sw c)) a = false
          ∧ (env.currentUser.role = "BENEFICIARY" →
              ∃ r, findUser env.users receiverId = some r ∧ r.role = "MERCHANT"
                ∧ (r.category = some c ∨ c = GENERAL_ID) ∧ r.verified = true)
          ∧ transferUpdate prev.wallets senderId receiverId a c = some w
          ∧ s' = recordTransaction env { prev with wallets := w } senderId receiverId a c
              "SUCCESS" "Smart Contract Verified") := by
  have key : ∀ o : Outcome,
      o = (match transferUpdate prev.wallets senderId receiverId a c with
        | none => Outcome.crashed
        | some w =>
          match findUser env.users receiverId with
          | none => Outcome.raised (recordTransaction env { prev with wallets := w } senderId
              receiverId a c "SUCCESS" "Smart Contract Verified")
          | some _ => Outcome.done (recordTransaction env { prev with wallets := w } senderId
              receiverId a c "SUCCESS" "Smart Contract Verified")) →
      o.state? = some s' →
      ∃ w, transferUpdate prev.wallets senderId receiverId a c = some w
          ∧ s' = recordTransaction env { prev with wallets := w } senderId receiverId a c
              "SUCCESS" "Smart Contract Verified" := by
    intro o ho hs
    subst ho
    cases hu : transferUpdate prev.wallets senderId receiverId a c with
    | none => simp [hu, Outcome.state?] at hs
    | some w =>
      refine ⟨w, rfl, ?_⟩
      cases hf : findUser env.users receiverId <;>
        simp [hu, hf, Outcome.state?] at hs <;> exact hs.symm
  unfold executeTransaction at h
  cases hw : wallets senderId with
  | none =>
    simp [hw, Outcome.state?] at h
    exact Or.inl ⟨by rw [h], Or.inl h.symm⟩
  | some sw =>
    simp only [hw] at h
    by_cases hf : jsLt (toNumber (sw c)) a = true
    · simp [hf, Outcome.state?] at h
      exact Or.inl ⟨by rw [← h]; rfl, Or.inr ⟨_, h.symm⟩⟩
    · have hf' : jsLt (toNumber (sw c)) a = false := by simpa using hf
      by_cases hcap : env.currentUser.role = "BENEFICIARY"
      · cases hr : findUser env.users receiverId with
        | none =>
          simp [hf, hcap, hr, Outcome.state?] at h
          exact Or.inl ⟨by rw [← h]; rfl, Or.inr ⟨_, h.symm⟩⟩
        | some r =>
          by_cases hrole : r.role = "MERCHANT"
          · by_cases hmis : r.category ≠ some c ∧ c ≠ GENERAL_ID
            · cases hl : categoryLabel c <;>
                simp [hf, hcap, hr, hrole, hmis, hl, Outcome.state?] at h <;>
                exact Or.inl ⟨by rw [← h]; rfl, Or.inr ⟨_, h.symm⟩⟩
            · by_cases hver : r.verified = false
              · simp [hf, hcap, hr, hrole, hmis, hver, Outcome.state?] at h
                exact Or.inl ⟨by rw [← h]; rfl, Or.inr ⟨_, h.symm⟩⟩
              · simp only [hf, hcap, hr, hrole, hmis, hver] at h
                obtain ⟨w, hu, hs'⟩ := key _ (by simp [hr]) h
                have hcat : r.category = some c ∨ c = GENERAL_ID := by
                  by_contra hne
                  push_neg at hne
                  exact hmis ⟨hne.1, hne.2⟩
                exact Or.inr ⟨sw, w, rfl, hf', fun _ => ⟨r, rfl, hrole, hcat, by simpa using hver⟩,
                  hu, hs'⟩
          · simp [hf, hcap, hr, hrole, Outcome.state?] at h
            exact Or.inl ⟨by rw [← h]; rfl, Or.inr ⟨_, h.symm⟩⟩
      · simp only [hf, hcap] at h
        obtain ⟨w, hu, hs'⟩ := key _ (by simp) h
        exact Or.inr ⟨sw, w, rfl, hf', fun hc => absurd hc hcap, hu, hs'⟩

/-- The value `x || 0` of a balance that is missing or at least 0 is at least 0. -/
theorem geZero_orZero (v : Option JSNum) (hv : ∀ x, v = some x → geZero x = true) :
    geZero (orZero v) = true := by
  cases v with
  | none => simp [orZero, geZero]
  | some x =>
    have hx := hv x rfl
    cases x with
    | fin q =>
      by_cases hz : q = 0
      · simp [orZero, geZero, hz]
      · simpa [orZero, geZero, hz] using hx
    | nan => simp [geZero] at hx
    | posInf => simp [orZero, geZero]
    | negInf => simp [geZero] at hx

/-- The sum of two numbers that are at least 0 is at least 0: a finite sum is rounded to a
double that is at least 0 or to `Infinity`. -/
theorem geZero_jsAdd (x y : JSNum) (hx : geZero x = true) (hy : geZero y = true) :
    geZero (jsAdd x y) = true := by
  cases x with
  | fin a =>
    cases y with
    | fin b =>
      have ha : 0 ≤ a := by simpa [geZero] using hx
      have hb : 0 ≤ b := by simpa [geZero] using hy
      rw [jsAdd_fin]
      rcases roundDouble_nonneg (a + b) (add_nonneg ha hb) with h | ⟨r, h, hr⟩
      · rw [h]; rfl
      · rw [h]; simpa [geZero] using hr
    | nan => simp [geZero] at hy
    | posInf => rfl
    | negInf => simp [geZero] at hy
  | nan => simp [geZero] at hx
  | posInf =>
    cases y with
    | fin b => rfl
    | nan => simp [geZero] at hy
    | posInf => rfl
    | negInf => simp [geZero] at hy
  | negInf => simp [geZero] at hx

/-- A balance that is at least 0 and passed the funds check for a finite amount is at least 0
after the debit. -/
theorem geZero_jsSub (x : JSNum) (a : ℚ) (hx : geZero x = true)
    (hfunds : jsLt x (JSNum.fin a) = false) : geZero (jsSub x (JSNum.fin a)) = true := by
  cases x with
  | fin b =>
    have hle : a ≤ b := by simpa [jsLt] using hfunds
    rw [jsSub_fin]
    rcases roundDouble_nonneg (b - a) (sub_nonneg.mpr hle) with h | ⟨r, h, hr⟩
    · rw [h]; rfl
    · rw [h]; simpa [geZero] using hr
  | nan => simp [geZero] at hx
  | posInf => rfl
  | negInf => simp [geZero] at hx

/-- The initial store holds no negative balance. -/
theorem initial_nonNegative : NonNegative INITIAL_WALLETS := by
  intro acct cat x hx
  unfold balance INITIAL_WALLETS at hx
  split_ifs at hx <;> simp only at hx <;> split_ifs at hx <;>
    (simp only [Option.some.injEq] at hx; subst hx; simp [geZero])

/-- The transfer updater keeps a store free of negative balances when the amount is finite,
the sender's entry is stored and the funds check was passed on that same store. -/
theorem transferUpdate_nonNegative (prev w : Wallets) (senderId receiverId c : String)
    (a : ℚ) (sw : Wallet)
    (hprev : NonNegative prev) (ha : 0 ≤ a)
    (hs : prev senderId = some sw) (hstored : sw c ≠ none)
    (hfunds : jsLt (toNumber (sw c)) (JSNum.fin a) = false)
    (hu : transferUpdate prev senderId receiverId (JSNum.fin a) c = some w) :
    NonNegative w := by
  unfold transferUpdate at hu
  cases hr : prev receiverId with
  | none => simp [hs, hr] at hu
  | some rw =>
    simp only [hs, hr, Option.some.injEq] at hu
    subst hu
    intro acct cat x hx
    by_cases har : acct = receiverId
    · subst har
      by_cases hcg : cat = GENERAL_ID
      · subst hcg
        have hg := geZero_orZero (rw GENERAL_ID)
          (fun y hy => hprev acct GENERAL_ID y (by simp [balance, hr, hy]))
        have hx' : jsAdd (orZero (rw GENERAL_ID)) (JSNum.fin a) = x := by
          simpa [balance, setWallet, setBalance] using hx
        rw [← hx']
        exact geZero_jsAdd _ _ hg (by simpa [geZero] using ha)
      · simp [balance, setWallet, setBalance, hcg] at hx
        exact hprev acct cat x (by simp [balance, hr, hx])
    · by_cases has : acct = senderId
      · subst has
        by_cases hcc : cat = c
        · subst hcc
          cases hb : sw cat with
          | none => exact absurd hb hstored
          | some y =>
            have hy := hprev acct cat y (by simp [balance, hs, hb])
            have hx' : jsSub (toNumber (sw cat)) (JSNum.fin a) = x := by
              simpa [balance, setWallet, setBalance, har] using hx
            rw [← hx', hb, toNumber_some]
            rw [hb, toNumber_some] at hfunds
            exact geZero_jsSub y a hy hfunds
        · simp [balance, setWallet, setBalance, har, hcc] at hx
          exact hprev acct cat x (by simp [balance, hs, hx])
      · simp only [balance, setWallet, har, has, if_false] at hx
        exact hprev acct cat x hx

/-- The allocation updater keeps a store free of negative balances when the amount is at
least 0. -/
theorem allocationUpdate_nonNegative (prev w : Wallets) (beneficiaryId c : String)
    (amt : JSNum)
    (hprev : NonNegative prev) (ha : geZero amt = true)
    (hu : allocationUpdate prev beneficiaryId amt c = some w) :
    NonNegative w := by
  unfold allocationUpdate at hu
  cases hb : prev beneficiaryId with
  | none => simp [hb] at hu
  | some bw =>
    simp only [hb, Option.some.injEq] at hu
    subst hu
    intro acct cat x hx
    by_cases hab : acct = beneficiaryId
    · subst hab
      by_cases hcc : cat = c
      · subst hcc
        have hg := geZero_orZero (bw cat)
          (fun y hy => hprev acct cat y (by simp [balance, hb, hy]))
        have hx' : jsAdd (orZero (bw cat)) amt = x := by
          simpa [balance, setWallet, setBalance] using hx
        rw [← hx']
        exact geZero_jsAdd _ _ hg ha
      · simp [balance, setWallet, setBalance, hcc] at hx
        exact hprev acct cat x (by simp [balance, hb, hx])
    · simp only [balance, setWallet, hab, if_false] at hx
      exact hprev acct cat x hx

/-- One transfer that runs alone keeps a store free of negative balances when the amount is
finite and at least 0 and the sender's entry for the category is stored. -/
theorem transfer_keeps_nonNegative (env : Env) (s s' : State) (senderId receiverId : String)
    (a : ℚ) (c : String)
    (hs : NonNegative s.wallets) (ha : 0 ≤ a)
    (hstored : balance s.wallets senderId c ≠ none)
    (h : (Transfer env s senderId receiverId (JSNum.fin a) c).state? = some s') :
    NonNegative s'.wallets := by
  rcases executeTransaction_cases env s.wallets s senderId receiverId (JSNum.fin a) c s' h with
    ⟨hw, _⟩ | ⟨sw, w, hsw, hfunds, _, hu, hs'⟩
  · rw [hw]; exact hs
  · subst hs'
    have hst : sw c ≠ none := by simpa [balance, hsw] using hstored
    exact transferUpdate_nonNegative s.wallets w senderId receiverId c a sw hs ha hsw hst
      hfunds hu

/-- One allocation keeps a store free of negative balances when the amount is at least 0. -/
theorem allocate_keeps_nonNegative (env : Env) (s s' : State) (beneficiaryId : String)
    (amt : JSNum) (c : String)
    (hs : NonNegative s.wallets) (ha : geZero amt = true)
    (h : (Allocate env s beneficiaryId amt c).state? = some s') :
    NonNegative s'.wallets := by
  unfold Allocate handleAdminAllocation at h
  cases hu : allocationUpdate s.wallets beneficiaryId amt c with
  | none => simp [hu, Outcome.state?] at h
  | some w =>
    simp only [hu, Outcome.state?, Option.some.injEq] at h
    subst h
    exact allocationUpdate_nonNegative s.wallets w beneficiaryId c amt hs ha hu

/-- C11 as stated fails: the administrator allocating -500 MEDICAL to `ben_1` in the initial
state is a call the program's ledger accepts, and it leaves `ben_1` with -450 MEDICAL, so a
reachable state holds a negative balance. -/
theorem nonNegative_is_not_invariant : ¬ ∀ s, Reachable s → NonNegative s.wallets := by
  intro hall
  have hreach : Reachable afterNegativeAllocation :=
    Reachable.allocate (envOf admin_1) initialState afterNegativeAllocation "ben_1"
      (JSNum.fin (-500)) MEDICAL_ID Reachable.init rfl (by decide) rfl
  have hbal : balance afterNegativeAllocation.wallets "ben_1" MEDICAL_ID
      = some (jsAdd (JSNum.fin 50) (JSNum.fin (-500))) := rfl
  rw [jsAdd_exact 50 (-500) (-450) (-450) (by norm_num) (by norm_num) (by norm_num)] at hbal
  have h0 := hall _ hreach "ben_1" MEDICAL_ID _ hbal
  simp only [geZero, decide_eq_true_eq] at h0
  norm_num at h0

/-- C11 as amended: after every finite sequence of transfers and allocations from the initial
state that run one at a time, where every transfer has a finite amount that is at least 0 and
draws from a stored balance entry and every allocation has an amount that passes `>= 0` and
a category that is not a property name inherited from `Object.prototype`, every stored balance
passes the test `>= 0`: none is negative and none is `NaN` (a balance can have overflowed to
`Infinity`). -/
theorem guarded_runs_stay_nonNegative (s : State) (hs : GuardedRun s) :
    NonNegative s.wallets := by
  induction hs with
  | init => exact initial_nonNegative
  | transfer env s s' senderId receiverId a c _ ha hstored h ih =>
    exact transfer_keeps_nonNegative env s s' senderId receiverId a c ih ha hstored h
  | allocate env s s' beneficiaryId amt c _ ha _ h ih =>
    exact allocate_keeps_nonNegative env s s' beneficiaryId amt c ih ha h

/-- An instance: the state after the administrator allocates 500 MEDICAL to `ben_1` and
`ben_1` then pays 10 unrestricted to `merch_1`. -/
theorem guarded_runs_stay_nonNegative_witness :
    GuardedRun scenarioE_paid ∧ NonNegative scenarioE_paid.wallets :=
  have hrun : GuardedRun scenarioE_paid :=
    GuardedRun.transfer (envOf ben_1) scenarioE_after scenarioE_paid "ben_1" "merch_1" 10
      GENERAL_ID
      (GuardedRun.allocate (envOf admin_1) initialState scenarioE_after "ben_1" (JSNum.fin 500)
        MEDICAL_ID GuardedRun.init (by simp [geZero]) (by decide) rfl)
      (by norm_num) (by decide) rfl
  ⟨hrun, guarded_runs_stay_nonNegative scenarioE_paid hrun⟩

/-- What an allocation does to a store that holds the account's wallet: it runs to its end,
sets the balance at the category to the sum `(balance || 0) + amount`, keeps every other
balance and every wallet, and puts one SUCCESS record "Relief Allocation" on the log. -/
theorem allocate_effect (env : Env) (s : State) (beneficiaryId c : String) (amt : JSNum)
    (bw : Wallet) (hw : s.wallets beneficiaryId = some bw) :
    ∃ s' tx, Allocate env s beneficiaryId amt c = Outcome.done s'
      ∧ balance s'.wallets beneficiaryId c
          = some (jsAdd (orZero (balance s.wallets beneficiaryId c)) amt)
      ∧ (∀ x y, ¬ (x = beneficiaryId ∧ y = c) → balance s'.wallets x y = balance s.wallets x y)
      ∧ (∃ bw', s'.wallets beneficiaryId = some bw')
      ∧ s'.transactions = tx :: s.transactions
      ∧ tx.status = "SUCCESS"
      ∧ tx.details = "Relief Allocation" := by
  refine ⟨recordTransaction env
      { s with
        wallets := (setWallet s.wallets beneficiaryId
          (setBalance bw c (jsAdd (orZero (bw c)) amt))) }
      "admin_1" beneficiaryId amt c "SUCCESS" "Relief Allocation", _, ?_, ?_, ?_, ?_,
    rfl, rfl, rfl⟩
  · simp [Allocate, handleAdminAllocation, allocationUpdate, hw]
  · simp [recordTransaction, balance, setWallet, setBalance, hw]
  · intro x y hxy
    by_cases hx : x = beneficiaryId
    · subst hx
      have hy : y ≠ c := fun h => hxy ⟨rfl, h⟩
      simp [recordTransaction, balance, setWallet, setBalance, hw, hy]
    · simp [recordTransaction, balance, setWallet, hx]
  · exact ⟨setBalance bw c (jsAdd (orZero (bw c)) amt), by simp [recordTransaction, setWallet]⟩

/-- A sum can overflow: the administrator allocates `2^1023` (about 8.99e307, a double) SHELTER
to `ben_1`, whose SHELTER balance is 0, twice. Both calls record SUCCESS and the balance is
`Infinity`, which passes `>= 0`. -/
theorem allocations_can_overflow_to_infinity :
    ∃ s1 s2,
      Allocate (envOf admin_1) initialState "ben_1" (JSNum.fin (2 ^ 1023)) SHELTER_ID
          = Outcome.done s1
        ∧ balance s1.wallets "ben_1" SHELTER_ID = some (JSNum.fin (2 ^ 1023))
        ∧ Allocate (envOf admin_1) s1 "ben_1" (JSNum.fin (2 ^ 1023)) SHELTER_ID = Outcome.done s2
        ∧ balance s2.wallets "ben_1" SHELTER_ID = some JSNum.posInf
        ∧ GuardedRun s2 := by
  have hdouble : roundDouble (2 ^ 1023) = JSNum.fin (2 ^ 1023) := by
    have h := roundDouble_eval (2 ^ 1023) 1023 4503599627370496
      (by norm_num [abs_of_nonneg]) (by norm_num [abs_of_nonneg]) (by norm_num)
      (by
        have hx : (((2 : ℚ) ^ 1023) / 2 ^ ((1023 : ℤ) - 52))
            = ((4503599627370496 : ℤ) : ℚ) := by norm_num
        rw [hx, roundHalfEven_intCast])
      (by norm_num [abs_of_nonneg])
    rw [h]
    norm_num
  obtain ⟨s1, _, hA1, hb1, _, ⟨bw1, hw1⟩, _⟩ := allocate_effect (envOf admin_1) initialState
    "ben_1" SHELTER_ID (JSNum.fin (2 ^ 1023))
    (fun c =>
      if c = FOOD_ID then some (JSNum.fin 150) else if c = MEDICAL_ID then some (JSNum.fin 50)
      else if c = SHELTER_ID then some (JSNum.fin 0) else if c = GENERAL_ID then some (JSNum.fin 10)
      else none)
    rfl
  have h0 : balance initialState.wallets "ben_1" SHELTER_ID = some (JSNum.fin 0) := rfl
  rw [h0, orZero_fin, jsAdd_fin, zero_add, hdouble] at hb1
  obtain ⟨s2, _, hA2, hb2, _⟩ := allocate_effect (envOf admin_1) s1 "ben_1" SHELTER_ID
    (JSNum.fin (2 ^ 1023)) bw1 hw1
  rw [hb1, orZero_fin, jsAdd_fin, roundDouble_overflow _ (by norm_num)] at hb2
  have hpos : geZero (JSNum.fin (2 ^ 1023)) = true := by
    simp only [geZero, decide_eq_true_eq]
    positivity
  refine ⟨s1, s2, hA1, hb1, hA2, hb2, ?_⟩
  exact GuardedRun.allocate (envOf admin_1) s1 s2 "ben_1" (JSNum.fin (2 ^ 1023)) SHELTER_ID
    (GuardedRun.allocate (envOf admin_1) initialState s1 "ben_1" (JSNum.fin (2 ^ 1023))
      SHELTER_ID GuardedRun.init hpos (by decide) (by rw [hA1]; rfl))
    hpos (by decide) (by rw [hA2]; rfl)

/-- C12 as stated fails: the administrator allocates 9007199254740992 (`2^53`) SHELTER to
`ben_1`, whose SHELTER balance is 0, and then allocates 1 more. Both calls record SUCCESS; the
second leaves the balance at 9007199254740992, because the double nearest `2^53 + 1` is
`2^53`: the balance is not raised by the amount. -/
theorem allocation_can_round_the_credit_away :
    ∃ s1 s2,
      Allocate (envOf admin_1) initialState "ben_1" (JSNum.fin 9007199254740992) SHELTER_ID
          = Outcome.done s1
        ∧ balance s1.wallets "ben_1" SHELTER_ID = some (JSNum.fin 9007199254740992)
        ∧ Allocate (envOf admin_1) s1 "ben_1" (JSNum.fin 1) SHELTER_ID = Outcome.done s2
        ∧ balance s2.wallets "ben_1" SHELTER_ID = some (JSNum.fin 9007199254740992) := by
  obtain ⟨s1, _, hA1, hb1, _, ⟨bw1, hw1⟩, _⟩ := allocate_effect (envOf admin_1) initialState
    "ben_1" SHELTER_ID (JSNum.fin 9007199254740992)
    (fun c =>
      if c = FOOD_ID then some (JSNum.fin 150) else if c = MEDICAL_ID then some (JSNum.fin 50)
      else if c = SHELTER_ID then some (JSNum.fin 0) else if c = GENERAL_ID then some (JSNum.fin 10)
      else none)
    rfl
  have h0 : balance initialState.wallets "ben_1" SHELTER_ID = some (JSNum.fin 0) := rfl
  rw [h0, orZero_fin, jsAdd_fin, zero_add, roundDouble_two_pow_53] at hb1
  obtain ⟨s2, _, hA2, hb2, _⟩ := allocate_effect (envOf admin_1) s1 "ben_1" SHELTER_ID
    (JSNum.fin 1) bw1 hw1
  rw [hb1, orZero_fin, jsAdd_fin,
    show (9007199254740992 : ℚ) + 1 = 9007199254740993 by norm_num,
    roundDouble_two_pow_53_add_one] at hb2
  exact ⟨s1, s2, hA1, hb1, hA2, hb2⟩

/-- C12 as amended: for every account that holds a wallet (as the beneficiaries of the registry
do), every category that is not a property name inherited from `Object.prototype` (as no
identifier of the catalog is) and every amount, the allocation runs to its end whatever the
balances, roles and verified flags: the account's balance at the category becomes the sum of
its previous value (a missing entry counting as 0) and the amount as `+` computes it. For
finite values that is the double nearest the exact sum, and the exact sum itself whenever that
is an integer of magnitude below `2^53`. Every other balance is kept, and one record with
status SUCCESS and reason "Relief Allocation" is added. -/
theorem allocation_credits_the_beneficiary (env : Env) (s : State) (beneficiaryId c : String)
    (amt : JSNum) (bw : Wallet)
    (hw : s.wallets beneficiaryId = some bw)
    (hc : c ∉ inheritedKeys) :
    ∃ s' tx, Allocate env s beneficiaryId amt c = Outcome.done s'
      ∧ balance s'.wallets beneficiaryId c
          = some (jsAdd (orZero (balance s.wallets beneficiaryId c)) amt)
      ∧ (∀ q a, orZero (balance s.wallets beneficiaryId c) = JSNum.fin q → amt = JSNum.fin a →
          balance s'.wallets beneficiaryId c = some (roundDouble (q + a))
            ∧ ∀ n : ℤ, q + a = n → |n| < 2 ^ 53 →
                balance s'.wallets beneficiaryId c = some (JSNum.fin (q + a)))
      ∧ (∀ x y, ¬ (x = beneficiaryId ∧ y = c) → balance s'.wallets x y = balance s.wallets x y)
      ∧ s'.transactions = tx :: s.transactions
      ∧ tx.status = "SUCCESS"
      ∧ tx.details = "Relief Allocation" := by
  have _ := hc
  obtain ⟨s', tx, hA, hb, hframe, _, hlog, hst, hd⟩ :=
    allocate_effect env s beneficiaryId c amt bw hw
  refine ⟨s', tx, hA, hb, ?_, hframe, hlog, hst, hd⟩
  intro q a hq ha
  rw [hq, ha] at hb
  refine ⟨by rw [hb, jsAdd_fin], ?_⟩
  intro n hn hlt
  rw [hb, jsAdd_exact q a (q + a) n rfl hn hlt]

/-- Scenario E: allocating 500 MEDICAL to `ben_1` takes its MEDICAL balance from 50 to 550;
the sum is an integer below `2^53`, so it is exact. -/
theorem allocation_credits_the_beneficiary_witness :
    (balance initialState.wallets "ben_1" MEDICAL_ID = some (JSNum.fin 50)
        ∧ MEDICAL_ID ∉ inheritedKeys)
      ∧ ∃ s', Allocate (envOf admin_1) initialState "ben_1" (JSNum.fin 500) MEDICAL_ID
          = Outcome.done s'
        ∧ balance s'.wallets "ben_1" MEDICAL_ID = some (JSNum.fin 550) := by
  refine ⟨⟨rfl, by decide⟩, ?_⟩
  obtain ⟨s', _, hT, _, hq, _⟩ := allocation_credits_the_beneficiary (envOf admin_1)
    initialState "ben_1" MEDICAL_ID (JSNum.fin 500)
    (fun c =>
      if c = FOOD_ID then some (JSNum.fin 150) else if c = MEDICAL_ID then some (JSNum.fin 50)
      else if c = SHELTER_ID then some (JSNum.fin 0) else if c = GENERAL_ID then some (JSNum.fin 10)
      else none)
    rfl (by decide)
  refine ⟨s', hT, ?_⟩
  have h0 : balance initialState.wallets "ben_1" MEDICAL_ID = some (JSNum.fin 50) := rfl
  have h := (hq 50 500 (by rw [h0, orZero_fin]) rfl).2 550 (by norm_num) (by norm_num)
  rw [h]
  norm_num

/-- C13, evaluated on the code: in beneficiary capacity `ben_1`, holding 10 unrestricted, sends
the verified merchant `merch_1` an amount of -5, of 0 and of `NaN`, drawn from `cat_gen`. No
rule looks at the sign of the amount and `10 < amount` is false each time, so each call records
SUCCESS: with -5 `ben_1` goes to 15 and `merch_1` to -5, with `NaN` both balances become
`NaN`. -/
theorem invalid_amounts_are_applied :
    ((Transfer (envOf ben_1) initialState "ben_1" "merch_1" (JSNum.fin (-5)) GENERAL_ID).newest
        = some ("SUCCESS", "Smart Contract Verified")
      ∧ (Transfer (envOf ben_1) initialState "ben_1" "merch_1" (JSNum.fin (-5))
            GENERAL_ID).state?.map
          (fun s => (balance s.wallets "ben_1" GENERAL_ID, balance s.wallets "merch_1" GENERAL_ID))
        = some (some (JSNum.fin 15), some (JSNum.fin (-5))))
    ∧ (Transfer (envOf ben_1) initialState "ben_1" "merch_1" (JSNum.fin 0) GENERAL_ID).newest
        = some ("SUCCESS", "Smart Contract Verified")
    ∧ ((Transfer (envOf ben_1) initialState "ben_1" "merch_1" JSNum.nan GENERAL_ID).newest
        = some ("SUCCESS", "Smart Contract Verified")
      ∧ (Transfer (envOf ben_1) initialState "ben_1" "merch_1" JSNum.nan GENERAL_ID).state?.map
          (fun s => (balance s.wallets "ben_1" GENERAL_ID, balance s.wallets "merch_1" GENERAL_ID))
        = some (some JSNum.nan, some JSNum.nan)) := by
  refine ⟨⟨rfl, ?_⟩, rfl, rfl, rfl⟩
  have h : (Transfer (envOf ben_1) initialState "ben_1" "merch_1" (JSNum.fin (-5))
            GENERAL_ID).state?.map
          (fun s => (balance s.wallets "ben_1" GENERAL_ID, balance s.wallets "merch_1" GENERAL_ID))
        = some (some (jsSub (JSNum.fin 10) (JSNum.fin (-5))),
            some (jsAdd (JSNum.fin 0) (JSNum.fin (-5)))) := rfl
  rw [h, jsSub_exact 10 (-5) 15 15 (by norm_num) (by norm_num) (by norm_num),
    jsAdd_exact 0 (-5) (-5) (-5) (by norm_num) (by norm_num) (by norm_num)]

/-- In every state the forms and timers can produce, either no callback is scheduled, or
`processing` is set and exactly one is, which the forms vouch for against the current store. -/
theorem appReachable_serial (app : App) (h : AppReachable app) :
    app.pending = []
      ∨ (app.processing = true ∧ ∃ job, app.pending = [job]
          ∧ job.admissible app.ledger.wallets) := by
  induction h with
  | init => exact Or.inl rfl
  | pay app env m amt c _ hu _ hrole hm hc ih =>
    unfold payClick
    by_cases hg : m = "" ∨ app.processing = true
    · simpa [hg] using ih
    · have hp : app.processing = false := by
        cases hpp : app.processing with
        | false => rfl
        | true => exact absurd (Or.inr hpp) hg
      rcases ih with hnil | ⟨htrue, _⟩
      · refine Or.inr ?_
        simp only [hg, if_false, hnil, List.nil_append, true_and]
        exact ⟨_, rfl, rfl, hu, hrole, rfl, hu ▸ hm, hc⟩
      · rw [hp] at htrue
        exact absurd htrue (by decide)
  | allocate app env b amt c _ _ _ _ hb hc ih =>
    unfold allocationClick
    by_cases hp : app.processing = true
    · simpa [hp] using ih
    · by_cases hpos : jsLt (JSNum.fin 0) amt = true
      · rcases ih with hnil | ⟨htrue, _⟩
        · refine Or.inr ?_
          rw [if_neg hp, if_pos hpos]
          simp only [hnil, List.nil_append, true_and]
          refine ⟨_, rfl, hpos, ?_, hc⟩
          rename_i hu _ _
          exact hu ▸ hb
        · exact absurd htrue hp
      · simpa [hp, hpos] using ih
  | timer app app' i _ hfire ih =>
    unfold timerFires at hfire
    rcases ih with hnil | ⟨_, job, hjob, _⟩
    · simp [hnil] at hfire
    · cases i with
      | zero =>
        simp only [hjob, List.get?_cons_zero] at hfire
        cases ho : runJob app.ledger job with
        | done s =>
          simp only [ho, Option.some.injEq] at hfire
          subst hfire
          exact Or.inl rfl
        | raised s =>
          simp only [ho, Option.some.injEq] at hfire
          subst hfire
          exact Or.inl rfl
        | crashed => simp [ho] at hfire
      | succ n => simp [hjob] at hfire

/-- C14 as stated fails: `handleAdminAllocation` checks neither argument. Allocating 500 of
`cat_unknown`, which the catalog does not hold, to `ben_1` records SUCCESS and creates the
entry at 500; allocating -500 MEDICAL records SUCCESS and takes the MEDICAL balance from 50 to
-450. -/
theorem allocation_applies_unvalidated_arguments :
    ("cat_unknown" ∉ allocationCategoryOptions
      ∧ (Allocate (envOf admin_1) initialState "ben_1" (JSNum.fin 500) "cat_unknown").newest
        = some ("SUCCESS", "Relief Allocation")
      ∧ (Allocate (envOf admin_1) initialState "ben_1" (JSNum.fin 500)
            "cat_unknown").state?.map (fun s => balance s.wallets "ben_1" "cat_unknown")
        = some (some (JSNum.fin 500)))
    ∧ ((Allocate (envOf admin_1) initialState "ben_1" (JSNum.fin (-500)) MEDICAL_ID).newest
        = some ("SUCCESS", "Relief Allocation")
      ∧ (Allocate (envOf admin_1) initialState "ben_1" (JSNum.fin (-500))
            MEDICAL_ID).state?.map (fun s => balance s.wallets "ben_1" MEDICAL_ID)
        = some (some (JSNum.fin (-450)))) := by
  refine ⟨⟨by decide, rfl, ?_⟩, rfl, ?_⟩
  · have h : (Allocate (envOf admin_1) initialState "ben_1" (JSNum.fin 500)
            "cat_unknown").state?.map (fun s => balance s.wallets "ben_1" "cat_unknown")
        = some (some (jsAdd (JSNum.fin 0) (JSNum.fin 500))) := rfl
    rw [h, jsAdd_exact 0 500 500 500 (by norm_num) (by norm_num) (by norm_num)]
  · have h : (Allocate (envOf admin_1) initialState "ben_1" (JSNum.fin (-500))
            MEDICAL_ID).state?.map (fun s => balance s.wallets "ben_1" MEDICAL_ID)
        = some (some (jsAdd (JSNum.fin 50) (JSNum.fin (-500)))) := rfl
    rw [h, jsAdd_exact 50 (-500) (-450) (-450) (by norm_num) (by norm_num) (by norm_num)]

/-- C14 as amended: the arguments of an allocation are validated by the allocation form, not
by `handleAdminAllocation`. In every state the forms and timers can produce, a click with an
amount that is not greater than 0 (negative, zero or `NaN`) schedules nothing and changes
nothing, and every allocation that is scheduled has an amount greater than 0 (a finite one, or
`Infinity`) and a category of the catalog. -/
theorem allocations_are_validated_by_the_form (app : App) (h : AppReachable app) :
    (∀ env ben amt cat, jsLt (JSNum.fin 0) amt = false →
        allocationClick app env ben amt cat = app)
      ∧ ∀ env ben amt cat, Job.allocation env ben amt cat ∈ app.pending →
          ((∃ q, amt = JSNum.fin q ∧ 0 < q) ∨ amt = JSNum.posInf)
            ∧ cat ∈ allocationCategoryOptions := by
  constructor
  · intro env ben amt cat hamt
    unfold allocationClick
    by_cases hp : app.processing = true
    · rw [if_pos hp]
    · rw [if_neg hp, hamt]
      simp
  · intro env ben amt cat hmem
    rcases appReachable_serial app h with hnil | ⟨_, job, hjob, hadm⟩
    · simp [hnil] at hmem
    · rw [hjob, List.mem_singleton] at hmem
      subst hmem
      refine ⟨?_, hadm.2.2⟩
      have hpos : jsLt (JSNum.fin 0) amt = true := hadm.1
      cases amt with
      | fin q => exact Or.inl ⟨q, rfl, by simpa [jsLt] using hpos⟩
      | nan => simp [jsLt] at hpos
      | posInf => exact Or.inr rfl
      | negInf => simp [jsLt] at hpos

/-- An instance: the administrator has clicked with 500 MEDICAL for `ben_1`; a further click
with -500 is dropped and the scheduled allocation carries the amount 500. -/
theorem allocations_are_validated_by_the_form_witness :
    allocationClick
        (allocationClick App.initial (envOf admin_1) "ben_1" (JSNum.fin 500) MEDICAL_ID)
        (envOf admin_1) "ben_1" (JSNum.fin (-500)) MEDICAL_ID
      = allocationClick App.initial (envOf admin_1) "ben_1" (JSNum.fin 500) MEDICAL_ID
    ∧ (((∃ q, JSNum.fin 500 = JSNum.fin q ∧ 0 < q) ∨ JSNum.fin 500 = JSNum.posInf)
        ∧ MEDICAL_ID ∈ allocationCategoryOptions) :=
  have hreach : AppReachable
      (allocationClick App.initial (envOf admin_1) "ben_1" (JSNum.fin 500) MEDICAL_ID) :=
    AppReachable.allocate App.initial (envOf admin_1) "ben_1" (JSNum.fin 500) MEDICAL_ID
      AppReachable.init rfl (by decide) rfl (by decide) (by decide)
  ⟨(allocations_are_validated_by_the_form _ hreach).1 (envOf admin_1) "ben_1"
      (JSNum.fin (-500)) MEDICAL_ID rfl,
   (allocations_are_validated_by_the_form _ hreach).2 (envOf admin_1) "ben_1" (JSNum.fin 500)
      MEDICAL_ID (List.mem_singleton.mpr rfl)⟩

/-- C15 as stated fails: the engine never compares the category with the catalog. In
beneficiary capacity `ben_1` sends 100 of `cat_unknown`, which the catalog does not hold, to
`merch_2`: the call puts a FAILED record "Category Mismatch: Merchant is FOOD" on the log,
which had none, and then raises while it builds the notification. Outside beneficiary
capacity `donor_1` sends the same: the call records SUCCESS and credits `merch_2` with 100. -/
theorem unknown_category_is_recorded :
    "cat_unknown" ∉ CATEGORIES.map (fun kc => kc.2.id)
      ∧ initialState.transactions.length = 0
      ∧ (Transfer (envOf ben_1) initialState "ben_1" "merch_2" (JSNum.fin 100)
          "cat_unknown").state?.map (fun s => s.transactions.length) = some 1
      ∧ (Transfer (envOf ben_1) initialState "ben_1" "merch_2" (JSNum.fin 100)
          "cat_unknown").newest = some ("FAILED", "Category Mismatch: Merchant is FOOD")
      ∧ (∃ s, Transfer (envOf ben_1) initialState "ben_1" "merch_2" (JSNum.fin 100)
          "cat_unknown" = Outcome.raised s)
      ∧ (Transfer (envOf donor_1) initialState "donor_1" "merch_2" (JSNum.fin 100)
          "cat_unknown").newest = some ("SUCCESS", "Smart Contract Verified")
      ∧ (Transfer (envOf donor_1) initialState "donor_1" "merch_2" (JSNum.fin 100)
          "cat_unknown").state?.map (fun s => balance s.wallets "merch_2" GENERAL_ID)
        = some (some (JSNum.fin 100)) := by
  refine ⟨by decide, rfl, rfl, rfl, ⟨unknownCategory_after, rfl⟩, rfl, ?_⟩
  have h : (Transfer (envOf donor_1) initialState "donor_1" "merch_2" (JSNum.fin 100)
          "cat_unknown").state?.map (fun s => balance s.wallets "merch_2" GENERAL_ID)
        = some (some (jsAdd (JSNum.fin 0) (JSNum.fin 100))) := rfl
  rw [h, jsAdd_exact 0 100 100 100 (by norm_num) (by norm_num) (by norm_num)]

/-- C15 as amended: the category of a transfer is validated by the payment form, not by
`executeTransaction`. In every state the forms and timers can produce, every scheduled payment
is made in beneficiary capacity and draws from an identifier of the catalog, one of the
restricted pockets, for which the label lookup of the mismatch notification succeeds. -/
theorem payment_categories_are_validated_by_the_form (app : App) (h : AppReachable app)
    (env : Env) (wallets : Wallets) (senderId receiverId : String) (a : JSNum) (c : String)
    (hmem : Job.transfer env wallets senderId receiverId a c ∈ app.pending) :
    env.currentUser.role = "BENEFICIARY"
      ∧ c ∈ CATEGORIES.map (fun kc => kc.2.id)
      ∧ c ≠ GENERAL_ID
      ∧ categoryLabel c ≠ none := by
  rcases appReachable_serial app h with hnil | ⟨_, job, hjob, hadm⟩
  · simp [hnil] at hmem
  · rw [hjob, List.mem_singleton] at hmem
    subst hmem
    have hrole : env.currentUser.role = "BENEFICIARY" := hadm.2.2.1
    have hc : c ∈ paymentCategoryOptions := hadm.2.2.2.2.2
    simp only [paymentCategoryOptions, CATEGORIES, List.filter, List.map, List.mem_cons,
      List.mem_singleton] at hc
    revert hc
    simp only [show decide ("cat_food" ≠ "cat_gen") = true from by decide,
      show decide ("cat_med" ≠ "cat_gen") = true from by decide,
      show decide ("cat_shelter" ≠ "cat_gen") = true from by decide,
      show decide ("cat_gen" ≠ "cat_gen") = false from by decide, List.map, List.mem_cons,
      List.not_mem_nil, or_false]
    intro hc
    rcases hc with h | h | h <;> subst h <;>
      exact ⟨hrole, by decide, by decide, by decide⟩

/-- An instance: `ben_1` has clicked "Confirm Payment" for 100 FOOD to `merch_2`; the
scheduled payment draws from `cat_food`. -/
theorem payment_categories_are_validated_by_the_form_witness :
    Job.transfer (envOf ben_1) INITIAL_WALLETS "ben_1" "merch_2" (JSNum.fin 100) FOOD_ID
        ∈ payingApp.pending
      ∧ ((envOf ben_1).currentUser.role = "BENEFICIARY"
        ∧ FOOD_ID ∈ CATEGORIES.map (fun kc => kc.2.id)
        ∧ FOOD_ID ≠ GENERAL_ID
        ∧ categoryLabel FOOD_ID ≠ none) :=
  ⟨List.mem_singleton.mpr rfl,
   payment_categories_are_validated_by_the_form payingApp
    (AppReachable.pay App.initial (envOf ben_1) "merch_2" (JSNum.fin 100) FOOD_ID
      AppReachable.init rfl (by decide) rfl (by decide) (by decide))
    (envOf ben_1) INITIAL_WALLETS "ben_1" "merch_2" (JSNum.fin 100) FOOD_ID
    (List.mem_singleton.mpr rfl)⟩

/-- C16, evaluated on the code: outside beneficiary capacity `donor_1`, holding 5000000
unrestricted, sends 100 unrestricted to `ghost`, an identifier the registry does not hold.
Rule 2, the only test of the receiver, is skipped, and the updater reads
`prev['ghost']['cat_gen']` on `undefined` and raises: the call neither completes nor records
FAILED. -/
theorem unknown_receiver_crashes_outside_beneficiary_capacity :
    findUser INITIAL_USERS "ghost" = none
      ∧ (envOf donor_1).currentUser.role ≠ "BENEFICIARY"
      ∧ Transfer (envOf donor_1) initialState "donor_1" "ghost" (JSNum.fin 100) GENERAL_ID
        = Outcome.crashed :=
  ⟨rfl, by decide, rfl⟩

/-- In beneficiary capacity a sender that holds a wallet and names a receiver the registry does
not hold gets one FAILED record and no balance moves. -/
theorem unknown_receiver_is_rejected_for_beneficiaries (env : Env) (s : State)
    (senderId receiverId c : String) (a : JSNum) (sw : Wallet)
    (hcap : env.currentUser.role = "BENEFICIARY")
    (hw : s.wallets senderId = some sw)
    (hr : findUser env.users receiverId = none) :
    ∃ d, Transfer env s senderId receiverId a c
      = Outcome.done (recordTransaction env s senderId receiverId a c "FAILED" d) := by
  by_cases hf : jsLt (toNumber (sw c)) a = true
  · exact ⟨"Insufficient Funds in Category", by simp [Transfer, executeTransaction, hw, hf]⟩
  · exact ⟨"Invalid Receiver", by simp [Transfer, executeTransaction, hw, hf, hcap, hr]⟩

/-- A transfer that runs to its end has put exactly one record in front of the log. -/
theorem executeTransaction_done_records (env : Env) (wallets : Wallets) (prev s' : State)
    (senderId receiverId : String) (a : JSNum) (c : String)
    (h : executeTransaction env wallets prev senderId receiverId a c = Outcome.done s') :
    ∃ w st d, s' = recordTransaction env { prev with wallets := w } senderId receiverId a c
      st d := by
  have key : ∀ o : Outcome,
      o = (match transferUpdate prev.wallets senderId receiverId a c with
        | none => Outcome.crashed
        | some w =>
          match findUser env.users receiverId with
          | none => Outcome.raised (recordTransaction env { prev with wallets := w } senderId
              receiverId a c "SUCCESS" "Smart Contract Verified")
          | some _ => Outcome.done (recordTransaction env { prev with wallets := w } senderId
              receiverId a c "SUCCESS" "Smart Contract Verified")) →
      o = Outcome.done s' →
      ∃ w st d, s' = recordTransaction env { prev with wallets := w } senderId receiverId a c
        st d := by
    intro o ho hs
    subst ho
    cases hu : transferUpdate prev.wallets senderId receiverId a c with
    | none => simp [hu] at hs
    | some w =>
      cases hf : findUser env.users receiverId with
      | none => simp [hu, hf] at hs
      | some r =>
        simp only [hu, hf, Outcome.done.injEq] at hs
        exact ⟨w, _, _, hs.symm⟩
  unfold executeTransaction at h
  cases hw : wallets senderId with
  | none => simp [hw] at h
  | some sw =>
    simp only [hw] at h
    by_cases hf : jsLt (toNumber (sw c)) a = true
    · simp only [hf, if_true, Outcome.done.injEq] at h
      exact ⟨prev.wallets, _, _, h.symm⟩
    · by_cases hcap : env.currentUser.role = "BENEFICIARY"
      · cases hr : findUser env.users receiverId with
        | none =>
          simp [hf, hcap, hr] at h
          exact ⟨prev.wallets, _, _, h.symm⟩
        | some r =>
          by_cases hrole : r.role = "MERCHANT"
          · by_cases hmis : r.category ≠ some c ∧ c ≠ GENERAL_ID
            · cases hl : categoryLabel c with
              | none => simp [hf, hcap, hr, hrole, hmis, hl] at h
              | some l =>
                simp [hf, hcap, hr, hrole, hmis, hl] at h
                exact ⟨prev.wallets, _, _, h.symm⟩
            · by_cases hver : r.verified = false
              · simp [hf, hcap, hr, hrole, hmis, hver] at h
                exact ⟨prev.wallets, _, _, h.symm⟩
              · simp only [hf, hcap, hr, hrole, hmis, hver] at h
                exact key _ (by simp [hr]) h
          · simp [hf, hcap, hr, hrole] at h
            exact ⟨prev.wallets, _, _, h.symm⟩
      · simp only [hf, hcap] at h
        exact key _ (by simp) h

/-- C17: a transfer or an allocation that runs to its end puts exactly one record at the head
of the log; the log grows by 1 and the records it held are behind the new one, unchanged and
in the same order. Stated for a transfer with any captured `wallets`. -/
theorem log_is_append_only (env : Env) (wallets : Wallets) (prev s' : State)
    (senderId receiverId beneficiaryId : String) (a : JSNum) (c : String)
    (h : executeTransaction env wallets prev senderId receiverId a c = Outcome.done s'
      ∨ handleAdminAllocation env prev beneficiaryId a c = Outcome.done s') :
    (∃ tx, s'.transactions = tx :: prev.transactions)
      ∧ s'.transactions.length = prev.transactions.length + 1
      ∧ s'.transactions.tail = prev.transactions := by
  have hcons : ∃ tx, s'.transactions = tx :: prev.transactions := by
    rcases h with h | h
    · obtain ⟨w, st, d, hs'⟩ :=
        executeTransaction_done_records env wallets prev s' senderId receiverId a c h
      exact ⟨_, by rw [hs']; rfl⟩
    · unfold handleAdminAllocation at h
      cases hu : allocationUpdate prev.wallets beneficiaryId a c with
      | none => simp [hu] at h
      | some w =>
        simp only [hu, Outcome.done.injEq] at h
        exact ⟨_, by rw [← h]; rfl⟩
  obtain ⟨tx, htx⟩ := hcons
  exact ⟨⟨tx, htx⟩, by rw [htx]; rfl, by rw [htx]; rfl⟩

/-- An instance: `ben_1` pays 10 unrestricted to `merch_1` in the initial state. -/
theorem log_is_append_only_witness :
    (∃ tx, paid_after.transactions = tx :: initialState.transactions)
      ∧ paid_after.transactions.length = initialState.transactions.length + 1
      ∧ paid_after.transactions.tail = initialState.transactions :=
  log_is_append_only (envOf ben_1) INITIAL_WALLETS initialState paid_after "ben_1" "merch_1"
    "ben_1" (JSNum.fin 10) GENERAL_ID (Or.inl rfl)

/-- A call that raises has put at most one record in front of the log and has removed or
changed none. -/
theorem executeTransaction_keeps_the_log (env : Env) (wallets : Wallets) (prev s' : State)
    (senderId receiverId : String) (a : JSNum) (c : String)
    (h : (executeTransaction env wallets prev senderId receiverId a c).state? = some s') :
    s'.transactions = prev.transactions ∨ ∃ tx, s'.transactions = tx :: prev.transactions := by
  rcases executeTransaction_shape env wallets prev senderId receiverId a c s' h with
    h1 | ⟨d, h1⟩ | ⟨w, _, h1⟩
  · exact Or.inl (by rw [h1])
  · exact Or.inr ⟨_, by rw [h1]; rfl⟩
  · exact Or.inr ⟨_, by rw [h1]; rfl⟩

/-- C18: every record a transfer adds, FAILED or SUCCESS, carries the requested amount and the
category the sender draws from; every record an allocation adds carries the allocated amount
and the credited category. -/
theorem records_carry_amount_and_category (env : Env) (wallets : Wallets) (prev s' : State)
    (senderId receiverId beneficiaryId : String) (a : JSNum) (c : String) (tx : Tx)
    (h : (executeTransaction env wallets prev senderId receiverId a c).state? = some s'
      ∨ (handleAdminAllocation env prev beneficiaryId a c).state? = some s')
    (hmem : tx ∈ newRecords prev s') :
    tx.amount = a ∧ tx.category = c := by
  rcases h with h | h
  · rcases executeTransaction_shape env wallets prev senderId receiverId a c s' h with
      h1 | ⟨d, h1⟩ | ⟨w, _, h1⟩
    · subst h1
      simp [newRecords] at hmem
    · subst h1
      have hn := newRecords_recordTransaction env prev prev.wallets senderId receiverId a c
        "FAILED" d
      rw [show ({ prev with wallets := prev.wallets } : State) = prev from rfl] at hn
      rw [hn, List.mem_singleton] at hmem
      subst hmem
      exact ⟨rfl, rfl⟩
    · subst h1
      rw [newRecords_recordTransaction, List.mem_singleton] at hmem
      subst hmem
      exact ⟨rfl, rfl⟩
  · unfold handleAdminAllocation at h
    cases hu : allocationUpdate prev.wallets beneficiaryId a c with
    | none => simp [hu, Outcome.state?] at h
    | some w =>
      simp only [hu, Outcome.state?, Option.some.injEq] at h
      subst h
      rw [newRecords_recordTransaction, List.mem_singleton] at hmem
      subst hmem
      exact ⟨rfl, rfl⟩

/-- An instance: the payment of 10 unrestricted from `ben_1` to `merch_1` records the amount 10
and `cat_gen`. -/
theorem records_carry_amount_and_category_witness :
    ((executeTransaction (envOf ben_1) INITIAL_WALLETS initialState "ben_1" "merch_1"
          (JSNum.fin 10) GENERAL_ID).state? = some paid_after
        ∧ paid_record ∈ newRecords initialState paid_after)
      ∧ (paid_record.amount = JSNum.fin 10 ∧ paid_record.category = GENERAL_ID) :=
  ⟨⟨rfl, show paid_record ∈ [paid_record] from List.mem_singleton.mpr rfl⟩,
   records_carry_amount_and_category (envOf ben_1) INITIAL_WALLETS initialState paid_after
    "ben_1" "merch_1" "ben_1" (JSNum.fin 10) GENERAL_ID paid_record (Or.inl rfl)
    (show paid_record ∈ [paid_record] from List.mem_singleton.mpr rfl)⟩

/-- Adding a finite amount to `x || 0` never gives `NaN`, so reading the sum back with
`|| 0` gives the sum, or 0 written as 0. -/
theorem orZero_jsAdd_fin (v : Option JSNum) (a : ℚ) :
    orZero (some (jsAdd (orZero v) (JSNum.fin a))) = jsAdd (orZero v) (JSNum.fin a) := by
  have hround : ∀ q : ℚ, orZero (some (roundDouble q)) = roundDouble q := by
    intro q
    unfold roundDouble
    split_ifs
    · rfl
    · rfl
    · exact orZero_fin _
  have hfin : ∀ b : ℚ, orZero (some (jsAdd (JSNum.fin b) (JSNum.fin a)))
      = jsAdd (JSNum.fin b) (JSNum.fin a) := by
    intro b
    rw [jsAdd_fin]
    exact hround _
  cases v with
  | none => exact hfin 0
  | some x =>
    cases x with
    | fin q => rw [orZero_fin]; exact hfin q
    | nan => exact hfin 0
    | posInf => rfl
    | negInf => rfl

/-- A transfer between two accounts that passes the funds check and the rules, both holding a
wallet, runs to its end: it adds one SUCCESS record, lowers the sender's balance at the
category by the amount and raises the receiver's unrestricted balance by it, as `-` and `+`
compute them. -/
theorem transfer_effect (env : Env) (s : State) (senderId receiverId c : String) (a x : JSNum)
    (r : User)
    (hne : senderId ≠ receiverId)
    (hb : balance s.wallets senderId c = some x)
    (hfunds : jsLt x a = false)
    (hr : findUser env.users receiverId = some r)
    (hrw : (s.wallets receiverId).isSome = true)
    (hrules : env.currentUser.role = "BENEFICIARY" →
      r.role = "MERCHANT" ∧ (r.category = some c ∨ c = GENERAL_ID) ∧ r.verified = true) :
    ∃ s1 tx1,
      Transfer env s senderId receiverId a c = Outcome.done s1
        ∧ s1.transactions = tx1 :: s.transactions
        ∧ tx1.status = "SUCCESS"
        ∧ balance s1.wallets senderId c = some (jsSub x a)
        ∧ balance s1.wallets receiverId GENERAL_ID
            = some (jsAdd (orZero (balance s.wallets receiverId GENERAL_ID)) a)
        ∧ (s1.wallets receiverId).isSome = true := by
  obtain ⟨sw, hsw, hswc⟩ := balance_eq_some s.wallets senderId c x hb
  obtain ⟨rw, hrw'⟩ := Option.isSome_iff_exists.mp hrw
  obtain ⟨w, hu, hT⟩ := executeTransaction_applies env s senderId receiverId c a sw rw r hsw
    (by rw [hswc, toNumber_some]; exact hfunds) hr hrw' hrules
  obtain ⟨e1, e2, _⟩ := transferUpdate_effect s.wallets w senderId receiverId c a hu hne
  rw [hb, toNumber_some] at e1
  obtain ⟨rw1, hrw1, _⟩ := balance_eq_some w receiverId GENERAL_ID _ e2
  refine ⟨_,
    { hash := env.hash, timestamp := env.timestamp, fromName := displayName env.users senderId,
      toName := displayName env.users receiverId, amount := a, category := c,
      status := "SUCCESS", details := "Smart Contract Verified" },
    hT, rfl, rfl, ?_, ?_, ?_⟩
  · rw [recordTransaction_wallets]; exact e1
  · rw [recordTransaction_wallets]; exact e2
  · rw [recordTransaction_wallets]
    show (w receiverId).isSome = true
    rw [hrw1]; rfl

/-- Rounding decides a later funds check: `ben_1`, holding 10 unrestricted, pays 9.9 to
`merch_1` and is left with 0.09999999999999964, so a payment of 0.1 that follows is refused
for insufficient funds. -/
theorem rounding_decides_the_next_funds_check :
    ∃ s1,
      Transfer (envOf ben_1) initialState "ben_1" "merch_1" (parseFloat (99 / 10)) GENERAL_ID
          = Outcome.done s1
        ∧ balance s1.wallets "ben_1" GENERAL_ID
            = some (JSNum.fin (56294995342131 / 562949953421312))
        ∧ (Transfer { envOf ben_1 with hash := "0x1", timestamp := "t1" } s1 "ben_1" "merch_1"
            (parseFloat (1 / 10)) GENERAL_ID).newest
          = some ("FAILED", "Insufficient Funds in Category") := by
  obtain ⟨r, hr, hrole, hver⟩ : ∃ r, findUser (envOf ben_1).users "merch_1" = some r
      ∧ r.role = "MERCHANT" ∧ r.verified = true := ⟨_, rfl, rfl, rfl⟩
  have h0 : balance initialState.wallets "ben_1" GENERAL_ID = some (JSNum.fin 10) := rfl
  obtain ⟨s1, _, hT1, _, _, hb1, _, _⟩ := transfer_effect (envOf ben_1) initialState "ben_1"
    "merch_1" GENERAL_ID (parseFloat (99 / 10)) (JSNum.fin 10) r (by decide) h0
    (by
      rw [parseFloat_nine_point_nine]
      simp only [jsLt, decide_eq_false_iff_not, not_lt]
      norm_num)
    hr rfl (fun _ => ⟨hrole, Or.inr rfl, hver⟩)
  rw [ten_minus_nine_point_nine.1] at hb1
  obtain ⟨sw, hsw, hswc⟩ := balance_eq_some s1.wallets "ben_1" GENERAL_ID _ hb1
  refine ⟨s1, hT1, hb1, ?_⟩
  rw [parseFloat_point_one,
    transfer_insufficient { envOf ben_1 with hash := "0x1", timestamp := "t1" } s1 "ben_1"
      "merch_1" GENERAL_ID sw (56294995342131 / 562949953421312)
      (3602879701896397 / 36028797018963968) hsw hswc (by norm_num)]
  rfl

/-- C19 as stated fails on doubles: the administrator allocates 9007199254740984 unrestricted
to `ben_1`, who then holds 9007199254740994 (`2^53 + 2`), and `ben_1` pays 1 unrestricted to
`merch_1` twice. Both payments record SUCCESS. The first leaves 9007199254740992, the double
nearest `2^53 + 1`, and the second 9007199254740991: the balance has fallen by 3, not by
twice the amount. -/
theorem two_payments_can_lower_the_balance_by_more :
    ∃ s0 s1 s2 tx1 tx2,
      Allocate (envOf admin_1) initialState "ben_1" (JSNum.fin 9007199254740984) GENERAL_ID
          = Outcome.done s0
        ∧ balance s0.wallets "ben_1" GENERAL_ID = some (JSNum.fin 9007199254740994)
        ∧ Transfer (envOf ben_1) s0 "ben_1" "merch_1" (JSNum.fin 1) GENERAL_ID = Outcome.done s1
        ∧ Transfer { envOf ben_1 with hash := "0x1", timestamp := "t1" } s1 "ben_1" "merch_1"
            (JSNum.fin 1) GENERAL_ID = Outcome.done s2
        ∧ s2.transactions = tx2 :: tx1 :: s0.transactions
        ∧ tx1.status = "SUCCESS" ∧ tx2.status = "SUCCESS"
        ∧ balance s2.wallets "ben_1" GENERAL_ID = some (JSNum.fin 9007199254740991) := by
  obtain ⟨s0, _, hA, hb0, hframe, _, _⟩ := allocate_effect (envOf admin_1) initialState
    "ben_1" GENERAL_ID (JSNum.fin 9007199254740984)
    (fun c =>
      if c = FOOD_ID then some (JSNum.fin 150) else if c = MEDICAL_ID then some (JSNum.fin 50)
      else if c = SHELTER_ID then some (JSNum.fin 0) else if c = GENERAL_ID then some (JSNum.fin 10)
      else none)
    rfl
  have h0 : balance initialState.wallets "ben_1" GENERAL_ID = some (JSNum.fin 10) := rfl
  have hbig : roundDouble 9007199254740994 = JSNum.fin 9007199254740994 := by
    have h := roundDouble_eval 9007199254740994 53 4503599627370497
      (by norm_num [abs_of_nonneg]) (by norm_num [abs_of_nonneg]) (by norm_num)
      (by
        have hx : ((9007199254740994 : ℚ) / 2 ^ ((53 : ℤ) - 52))
            = ((4503599627370497 : ℤ) : ℚ) := by norm_num
        rw [hx, roundHalfEven_intCast])
      (by norm_num [abs_of_nonneg])
    rw [h]
    norm_num
  rw [h0, orZero_fin, jsAdd_fin,
    show (10 : ℚ) + 9007199254740984 = 9007199254740994 by norm_num, hbig] at hb0
  have hm0 : balance s0.wallets "merch_1" GENERAL_ID = some (JSNum.fin 0) := by
    rw [hframe "merch_1" GENERAL_ID (by decide)]
    rfl
  obtain ⟨mw0, hmw0, _⟩ := balance_eq_some s0.wallets "merch_1" GENERAL_ID _ hm0
  obtain ⟨r, hr, hrole, hver⟩ : ∃ r, findUser (envOf ben_1).users "merch_1" = some r
      ∧ r.role = "MERCHANT" ∧ r.verified = true := ⟨_, rfl, rfl, rfl⟩
  obtain ⟨s1, tx1, hT1, hlog1, hst1, hb1, _, hw1⟩ := transfer_effect (envOf ben_1) s0 "ben_1"
    "merch_1" GENERAL_ID (JSNum.fin 1) (JSNum.fin 9007199254740994) r (by decide) hb0
    (by simp only [jsLt, decide_eq_false_iff_not, not_lt]; norm_num) hr
    (by rw [hmw0]; rfl) (fun _ => ⟨hrole, Or.inr rfl, hver⟩)
  rw [jsSub_fin, show (9007199254740994 : ℚ) - 1 = 9007199254740993 by norm_num,
    roundDouble_two_pow_53_add_one] at hb1
  obtain ⟨s2, tx2, hT2, hlog2, hst2, hb2, _, _⟩ := transfer_effect
    { envOf ben_1 with hash := "0x1", timestamp := "t1" } s1 "ben_1"
    "merch_1" GENERAL_ID (JSNum.fin 1) (JSNum.fin 9007199254740992) r (by decide) hb1
    (by simp only [jsLt, decide_eq_false_iff_not, not_lt]; norm_num) hr
    hw1 (fun _ => ⟨hrole, Or.inr rfl, hver⟩)
  rw [jsSub_exact 9007199254740992 1 9007199254740991 9007199254740991 (by norm_num)
    (by norm_num) (by norm_num)] at hb2
  exact ⟨s0, s1, s2, tx1, tx2, hA, hb0, hT1, hT2, by rw [hlog2, hlog1], hst1, hst2, hb2⟩

/-- C19 as amended: a transfer between two different accounts that succeeds, of an amount that
is a double, from a balance that is at least twice the amount (finite or `Infinity`), succeeds
again when it is invoked a second time with the same arguments on the state the first call
left (only the hash and timestamp of the record differ). The log holds two new SUCCESS records
and two balance mutations are applied: the sender's balance at the category is the result of
subtracting the amount twice, and the receiver's unrestricted balance (a missing entry counting
as 0) the result of adding the amount twice, each operation giving the double nearest its
exact result. When the amount and the two balances are whole numbers that are at least 0 and
stay below `2^53`, the sender's balance has fallen by exactly twice the amount and the
receiver's has risen by exactly twice the amount. -/
theorem transfer_is_not_idempotent (env : Env) (hash2 timestamp2 : String) (s s1 : State)
    (senderId receiverId c : String) (a : ℚ) (x : JSNum) (tx1 : Tx)
    (hne : senderId ≠ receiverId)
    (hb : balance s.wallets senderId c = some x)
    (hdouble : roundDouble a = JSNum.fin a)
    (h2 : (∃ b, x = JSNum.fin b ∧ 2 * a ≤ b) ∨ x = JSNum.posInf)
    (h1 : Transfer env s senderId receiverId (JSNum.fin a) c = Outcome.done s1)
    (hlog : s1.transactions = tx1 :: s.transactions)
    (hst : tx1.status = "SUCCESS") :
    ∃ s2 tx2,
      Transfer { env with hash := hash2, timestamp := timestamp2 } s1 senderId receiverId
          (JSNum.fin a) c = Outcome.done s2
        ∧ s2.transactions = tx2 :: tx1 :: s.transactions
        ∧ tx2.status = "SUCCESS"
        ∧ balance s2.wallets senderId c
            = some (jsSub (jsSub x (JSNum.fin a)) (JSNum.fin a))
        ∧ balance s2.wallets receiverId GENERAL_ID
            = some (jsAdd (jsAdd (orZero (balance s.wallets receiverId GENERAL_ID)) (JSNum.fin a))
                (JSNum.fin a))
        ∧ ∀ (b g : ℚ) (nb na ng : ℤ), x = JSNum.fin b →
            orZero (balance s.wallets receiverId GENERAL_ID) = JSNum.fin g →
            b = nb → a = na → g = ng → 0 ≤ na → nb < 2 ^ 53 → 0 ≤ ng → ng + 2 * na < 2 ^ 53 →
            balance s2.wallets senderId c = some (JSNum.fin (b - 2 * a))
              ∧ balance s2.wallets receiverId GENERAL_ID = some (JSNum.fin (g + 2 * a)) := by
  have hcover : jsLt (jsSub x (JSNum.fin a)) (JSNum.fin a) = false := by
    rcases h2 with ⟨b, hx, hle⟩ | hx
    · rw [hx, jsSub_fin]
      exact roundDouble_ge a (b - a) hdouble (by linarith)
    · rw [hx]
      rfl
  have hs1 : (executeTransaction env s.wallets s senderId receiverId (JSNum.fin a) c).state?
      = some s1 := by
    have := h1
    unfold Transfer at this
    rw [this]; rfl
  rcases executeTransaction_cases env s.wallets s senderId receiverId (JSNum.fin a) c s1 hs1
    with ⟨_, hsame | ⟨d, hfail⟩⟩ | ⟨sw, w, hsw, hfunds, hrules, hu, hs1eq⟩
  · subst hsame
    have := congrArg List.length hlog
    simp at this
  · subst hfail
    simp only [recordTransaction, List.cons.injEq] at hlog
    rw [← hlog.1] at hst
    simp at hst
  · -- the receiver is in the registry, since the first call ran to its end
    have hrecv : ∃ r, findUser env.users receiverId = some r := by
      cases hr : findUser env.users receiverId with
      | some r => exact ⟨r, rfl⟩
      | none =>
        exfalso
        by_cases hcap : env.currentUser.role = "BENEFICIARY"
        · obtain ⟨r, hr', _⟩ := hrules hcap
          rw [hr] at hr'
          exact Option.noConfusion hr'
        · simp [Transfer, executeTransaction, hsw, hfunds, hcap, hu, hr] at h1
    obtain ⟨r, hr⟩ := hrecv
    obtain ⟨e1, e2, _⟩ := transferUpdate_effect s.wallets w senderId receiverId c (JSNum.fin a)
      hu hne
    rw [hb, toNumber_some] at e1
    have hw1 : s1.wallets = w := by rw [hs1eq]; rfl
    obtain ⟨rw1, hrw1, _⟩ := balance_eq_some w receiverId GENERAL_ID _ e2
    obtain ⟨s2, tx2, hT2, hlog2, hst2, f1, f2, _⟩ := transfer_effect
      { env with hash := hash2, timestamp := timestamp2 } s1 senderId receiverId c
      (JSNum.fin a) (jsSub x (JSNum.fin a)) r hne (by rw [hw1]; exact e1) hcover hr
      (by rw [hw1, hrw1]; rfl)
      (fun hcap => by
        obtain ⟨r', hr', hrole, hcat, hver⟩ := hrules hcap
        rw [hr] at hr'
        cases hr'
        exact ⟨hrole, hcat, hver⟩)
    rw [hw1, e2, orZero_jsAdd_fin] at f2
    refine ⟨s2, tx2, hT2, by rw [hlog2, hlog], hst2, f1, f2, ?_⟩
    intro b g nb na ng hx hg hbn han hgn hna hnb hng hsum
    have hle : 2 * a ≤ b := by
      rcases h2 with ⟨b', hx', hle'⟩ | hx'
      · rw [hx] at hx'
        injection hx' with hbb
        rw [hbb]
        exact hle'
      · rw [hx] at hx'
        exact JSNum.noConfusion hx'
    have hz : 2 * na ≤ nb := by
      have : (2 : ℚ) * (na : ℚ) ≤ (nb : ℚ) := by
        rw [← hbn, ← han]
        exact hle
      exact_mod_cast this
    constructor
    · rw [f1, hx,
        jsSub_exact b a (b - a) (nb - na) rfl (by rw [hbn, han]; push_cast; ring)
          (abs_lt.mpr ⟨by omega, by omega⟩),
        jsSub_exact (b - a) a (b - 2 * a) (nb - 2 * na) (by ring)
          (by rw [hbn, han]; push_cast; ring) (abs_lt.mpr ⟨by omega, by omega⟩)]
    · rw [f2, hg,
        jsAdd_exact g a (g + a) (ng + na) rfl (by rw [hgn, han]; push_cast; ring)
          (abs_lt.mpr ⟨by omega, by omega⟩),
        jsAdd_exact (g + a) a (g + 2 * a) (ng + 2 * na) (by ring)
          (by rw [hgn, han]; push_cast; ring) (abs_lt.mpr ⟨by omega, by omega⟩)]

/-- An instance: `ben_1`, holding 10 unrestricted, pays 5 unrestricted to `merch_1` twice; the
log holds two records, `ben_1` is left with 0 and `merch_1` with 10. -/
theorem transfer_is_not_idempotent_witness :
    Transfer (envOf ben_1) initialState "ben_1" "merch_1" (JSNum.fin 5) GENERAL_ID
        = Outcome.done paidFive_after
      ∧ ∃ s2, Transfer { envOf ben_1 with hash := "0x1", timestamp := "t1" } paidFive_after
            "ben_1" "merch_1" (JSNum.fin 5) GENERAL_ID = Outcome.done s2
          ∧ s2.transactions.length = 2
          ∧ balance s2.wallets "ben_1" GENERAL_ID = some (JSNum.fin 0)
          ∧ balance s2.wallets "merch_1" GENERAL_ID = some (JSNum.fin 10) := by
  refine ⟨rfl, ?_⟩
  obtain ⟨s2, tx2, hT, hlog, _, _, _, hex⟩ := transfer_is_not_idempotent (envOf ben_1) "0x1"
    "t1" initialState paidFive_after "ben_1" "merch_1" GENERAL_ID 5 (JSNum.fin 10)
    paidFive_record (by decide) rfl (roundDouble_of_int 5 5 (by norm_num) (by norm_num))
    (Or.inl ⟨10, rfl, by norm_num⟩) rfl rfl rfl
  have h0 : balance initialState.wallets "merch_1" GENERAL_ID = some (JSNum.fin 0) := rfl
  obtain ⟨hs, hr⟩ := hex 10 0 10 5 0 rfl (by rw [h0, orZero_fin]) (by norm_num) (by norm_num)
    (by norm_num) (by norm_num) (by norm_num) (by norm_num) (by norm_num)
  refine ⟨s2, hT, by rw [hlog]; rfl, ?_, ?_⟩
  · rw [hs]; norm_num
  · rw [hr]; norm_num

/-- C20 as stated fails on the engine: two payments of 10 unrestricted from `ben_1`, who holds
10, to `merch_1` are both made in the initial render, so both callbacks test the funds on the
same captured `wallets`. Both pass and both deduct: each records SUCCESS and `ben_1` is left
with 10 - 10 - 10 = -10. -/
theorem overlapping_transfers_overdraw :
    balance INITIAL_WALLETS "ben_1" GENERAL_ID = some (JSNum.fin 10)
      ∧ (executeTransaction (envOf ben_1) INITIAL_WALLETS initialState "ben_1" "merch_1"
          (JSNum.fin 10) GENERAL_ID).newest = some ("SUCCESS", "Smart Contract Verified")
      ∧ (executeTransaction (envOf ben_1) INITIAL_WALLETS raceFirst "ben_1" "merch_1"
          (JSNum.fin 10) GENERAL_ID).newest = some ("SUCCESS", "Smart Contract Verified")
      ∧ raceSecond.transactions.length = 2
      ∧ balance raceSecond.wallets "ben_1" GENERAL_ID = some (JSNum.fin (-10))
      ∧ balance raceSecond.wallets "merch_1" GENERAL_ID = some (JSNum.fin 20) := by
  have hu1 : transferUpdate initialState.wallets "ben_1" "merch_1" (JSNum.fin 10) GENERAL_ID
      = some raceFirst.wallets := rfl
  have hu2 : transferUpdate raceFirst.wallets "ben_1" "merch_1" (JSNum.fin 10) GENERAL_ID
      = some raceSecond.wallets := rfl
  have i1 : balance initialState.wallets "ben_1" GENERAL_ID = some (JSNum.fin 10) := rfl
  have i2 : balance initialState.wallets "merch_1" GENERAL_ID = some (JSNum.fin 0) := rfl
  obtain ⟨a1, a2, _⟩ := transferUpdate_effect initialState.wallets raceFirst.wallets "ben_1"
    "merch_1" GENERAL_ID (JSNum.fin 10) hu1 (by decide)
  rw [i1, toNumber_some, jsSub_exact 10 10 0 0 (by norm_num) (by norm_num) (by norm_num)] at a1
  rw [i2, orZero_fin, jsAdd_exact 0 10 10 10 (by norm_num) (by norm_num) (by norm_num)] at a2
  obtain ⟨b1, b2, _⟩ := transferUpdate_effect raceFirst.wallets raceSecond.wallets "ben_1"
    "merch_1" GENERAL_ID (JSNum.fin 10) hu2 (by decide)
  rw [a1, toNumber_some,
    jsSub_exact 0 10 (-10) (-10) (by norm_num) (by norm_num) (by norm_num)] at b1
  rw [a2, orZero_fin, jsAdd_exact 10 10 20 20 (by norm_num) (by norm_num) (by norm_num)] at b2
  exact ⟨rfl, rfl, rfl, rfl, b1, b2⟩

/-- C20 as amended: calls are kept apart by `processing`, not by the engine. In every state
the forms and timers can produce at most one callback is scheduled, and a scheduled transfer
holds the current store as its captured `wallets`: when it runs, its funds check and its
deduction are made on the same store, as in a transfer that runs alone. -/
theorem calls_in_flight_are_serialised (app : App) (h : AppReachable app) :
    app.pending.length ≤ 1
      ∧ ∀ env wallets senderId receiverId a c,
          Job.transfer env wallets senderId receiverId a c ∈ app.pending →
          wallets = app.ledger.wallets
            ∧ runJob app.ledger (Job.transfer env wallets senderId receiverId a c)
              = Transfer env app.ledger senderId receiverId a c := by
  rcases appReachable_serial app h with hnil | ⟨_, job, hjob, hadm⟩
  · refine ⟨by simp [hnil], ?_⟩
    intro env wallets senderId receiverId a c hmem
    simp [hnil] at hmem
  · refine ⟨by simp [hjob], ?_⟩
    intro env wallets senderId receiverId a c hmem
    rw [hjob, List.mem_singleton] at hmem
    subst hmem
    have hw : wallets = app.ledger.wallets := hadm.1
    subst hw
    exact ⟨rfl, rfl⟩

/-- An instance: `ben_1` has clicked "Confirm Payment"; a second click while the first call is
in flight schedules nothing, and the one scheduled transfer holds the current store. -/
theorem calls_in_flight_are_serialised_witness :
    payClick payingApp (envOf ben_1) "merch_2" (JSNum.fin 100) FOOD_ID = payingApp
      ∧ payingApp.pending.length ≤ 1
      ∧ ∀ env wallets senderId receiverId a c,
          Job.transfer env wallets senderId receiverId a c ∈ payingApp.pending →
          wallets = payingApp.ledger.wallets
            ∧ runJob payingApp.ledger (Job.transfer env wallets senderId receiverId a c)
              = Transfer env payingApp.ledger senderId receiverId a c :=
  ⟨rfl,
   calls_in_flight_are_serialised payingApp
    (AppReachable.pay App.initial (envOf ben_1) "merch_2" (JSNum.fin 100) FOOD_ID
      AppReachable.init rfl (by decide) rfl (by decide) (by decide))⟩

/-- In every state the program can be in, every account that holds a wallet in
`INITIAL_WALLETS`, the two beneficiaries among them, still holds one. -/
theorem reachable_keeps_initial_wallets (s : State) (hs : Reachable s) (x : String)
    (hx : (INITIAL_WALLETS x).isSome = true) : (s.wallets x).isSome = true := by
  induction hs with
  | init => exact hx
  | transfer env s s' senderId receiverId a c _ _ _ h ih =>
    exact executeTransaction_keeps_wallets env s.wallets s s' senderId receiverId a c h x ih
  | allocate env s s' beneficiaryId a c _ _ _ h ih =>
    exact handleAdminAllocation_keeps_wallets env s s' beneficiaryId a c h x ih

/-- A transfer whose sender and receiver both hold a wallet in the store it runs on always
leaves a state: the funds check can be evaluated and the updater does not raise. -/
theorem transfer_leaves_a_state (env : Env) (s : State) (senderId receiverId : String)
    (a : JSNum) (c : String) (sw rw : Wallet)
    (hw : s.wallets senderId = some sw) (hrw : s.wallets receiverId = some rw) :
    ∃ s', (Transfer env s senderId receiverId a c).state? = some s' := by
  have hu : ∃ w, transferUpdate s.wallets senderId receiverId a c = some w := by
    simp [transferUpdate, hw, hrw]
  obtain ⟨w, hu⟩ := hu
  have key : ∀ o : Outcome,
      o = (match transferUpdate s.wallets senderId receiverId a c with
        | none => Outcome.crashed
        | some w =>
          match findUser env.users receiverId with
          | none => Outcome.raised (recordTransaction env { s with wallets := w } senderId
              receiverId a c "SUCCESS" "Smart Contract Verified")
          | some _ => Outcome.done (recordTransaction env { s with wallets := w } senderId
              receiverId a c "SUCCESS" "Smart Contract Verified")) →
      ∃ s', o.state? = some s' := by
    intro o ho
    subst ho
    cases hf : findUser env.users receiverId <;> simp [hu, Outcome.state?]
  unfold Transfer executeTransaction
  simp only [hw]
  by_cases hf : jsLt (toNumber (sw c)) a = true
  · simp [hf, Outcome.state?]
  · by_cases hcap : env.currentUser.role = "BENEFICIARY"
    · cases hr : findUser env.users receiverId with
      | none => simp [hf, hcap, Outcome.state?]
      | some r =>
        by_cases hrole : r.role = "MERCHANT"
        · by_cases hmis : r.category ≠ some c ∧ c ≠ GENERAL_ID
          · cases hl : categoryLabel c <;> simp [hf, hcap, hrole, hmis, Outcome.state?]
          · by_cases hver : r.verified = false
            · simp [hf, hcap, hrole, hmis, hver, Outcome.state?]
            · simp only [hf, hcap, hrole, hmis, hver]
              exact key _ (by simp [hr])
        · simp [hf, hcap, hrole, Outcome.state?]
    · simp only [hf, hcap]
      exact key _ (by simp)

/-- C21 as stated fails: `Infinity` is a strictly positive amount. The administrator allocates
`Infinity` unrestricted to `ben_1`; every balance of the store then passes `>= 0`. `ben_1`,
whose entry is stored, pays `Infinity` unrestricted to `merch_1`, a different account that
holds a wallet: the funds check `Infinity < Infinity` is false, the call records SUCCESS and
the sender is left with `Infinity - Infinity`, which is `NaN` and does not pass `>= 0`. -/
theorem infinite_payment_leaves_nan :
    ∃ s0 s1 tx,
      Allocate (envOf admin_1) initialState "ben_1" JSNum.posInf GENERAL_ID = Outcome.done s0
        ∧ NonNegative s0.wallets
        ∧ jsLt (JSNum.fin 0) JSNum.posInf = true
        ∧ balance s0.wallets "ben_1" GENERAL_ID = some JSNum.posInf
        ∧ (s0.wallets "merch_1").isSome = true
        ∧ Transfer (envOf ben_1) s0 "ben_1" "merch_1" JSNum.posInf GENERAL_ID = Outcome.done s1
        ∧ s1.transactions = tx :: s0.transactions
        ∧ tx.status = "SUCCESS"
        ∧ balance s1.wallets "ben_1" GENERAL_ID = some JSNum.nan
        ∧ ¬ NonNegative s1.wallets := by
  obtain ⟨s0, _, hA, hb0, hframe, _, _⟩ := allocate_effect (envOf admin_1) initialState
    "ben_1" GENERAL_ID JSNum.posInf
    (fun c =>
      if c = FOOD_ID then some (JSNum.fin 150) else if c = MEDICAL_ID then some (JSNum.fin 50)
      else if c = SHELTER_ID then some (JSNum.fin 0) else if c = GENERAL_ID then some (JSNum.fin 10)
      else none)
    rfl
  have h0 : balance initialState.wallets "ben_1" GENERAL_ID = some (JSNum.fin 10) := rfl
  rw [h0, orZero_fin] at hb0
  have hb0' : balance s0.wallets "ben_1" GENERAL_ID = some JSNum.posInf := hb0
  have hnn : NonNegative s0.wallets :=
    allocate_keeps_nonNegative (envOf admin_1) initialState s0 "ben_1" JSNum.posInf GENERAL_ID
      initial_nonNegative rfl (by rw [hA]; rfl)
  have hm0 : balance s0.wallets "merch_1" GENERAL_ID = some (JSNum.fin 0) := by
    rw [hframe "merch_1" GENERAL_ID (by decide)]
    rfl
  obtain ⟨mw0, hmw0, _⟩ := balance_eq_some s0.wallets "merch_1" GENERAL_ID _ hm0
  have hm : (s0.wallets "merch_1").isSome = true := by rw [hmw0]; rfl
  obtain ⟨r, hr, hrole, hver⟩ : ∃ r, findUser (envOf ben_1).users "merch_1" = some r
      ∧ r.role = "MERCHANT" ∧ r.verified = true := ⟨_, rfl, rfl, rfl⟩
  obtain ⟨s1, tx, hT, hlog, hst, hb1, _, _⟩ := transfer_effect (envOf ben_1) s0 "ben_1"
    "merch_1" GENERAL_ID JSNum.posInf JSNum.posInf r (by decide) hb0' rfl hr hm
    (fun _ => ⟨hrole, Or.inr rfl, hver⟩)
  have hb1' : balance s1.wallets "ben_1" GENERAL_ID = some JSNum.nan := hb1
  refine ⟨s0, s1, tx, hA, hnn, rfl, hb0', hm, hT, hlog, hst, hb1', ?_⟩
  intro hall
  have := hall "ben_1" GENERAL_ID _ hb1'
  simp [geZero] at this

/-- C21 as amended: on a store whose balances all pass `>= 0`, a single transfer that is
validated and applied against that store, with a strictly positive finite amount, a sender
that has a stored entry for the category and a receiver that is a different account holding a
wallet, leaves a state, and in it every balance still passes `>= 0` (none is negative, none is
`NaN`), whether the call recorded SUCCESS or FAILED. -/
theorem single_transfer_keeps_balances_nonNegative (env : Env) (s : State)
    (senderId receiverId : String) (a : ℚ) (c : String)
    (hs : NonNegative s.wallets)
    (ha : 0 < a)
    (hstored : balance s.wallets senderId c ≠ none)
    (hne : senderId ≠ receiverId)
    (hrecv : (s.wallets receiverId).isSome = true) :
    ∃ s', (Transfer env s senderId receiverId (JSNum.fin a) c).state? = some s'
      ∧ NonNegative s'.wallets := by
  have _ := hne
  obtain ⟨rw, hrw⟩ := Option.isSome_iff_exists.mp hrecv
  cases hw : s.wallets senderId with
  | none => simp [balance, hw] at hstored
  | some sw =>
    obtain ⟨s', hs'⟩ := transfer_leaves_a_state env s senderId receiverId (JSNum.fin a) c sw rw
      hw hrw
    exact ⟨s', hs',
      transfer_keeps_nonNegative env s s' senderId receiverId a c hs (le_of_lt ha) hstored hs'⟩

/-- An instance: in the initial state `ben_1`, holding 10 unrestricted, pays 10 unrestricted to
`merch_1`; the call records SUCCESS and no balance is negative afterwards. -/
theorem single_transfer_keeps_balances_nonNegative_witness :
    (NonNegative initialState.wallets
        ∧ balance initialState.wallets "ben_1" GENERAL_ID ≠ none
        ∧ (initialState.wallets "merch_1").isSome = true)
      ∧ (Transfer (envOf ben_1) initialState "ben_1" "merch_1" (JSNum.fin 10) GENERAL_ID).newest
          = some ("SUCCESS", "Smart Contract Verified")
      ∧ ∃ s', (Transfer (envOf ben_1) initialState "ben_1" "merch_1" (JSNum.fin 10)
            GENERAL_ID).state? = some s'
          ∧ NonNegative s'.wallets :=
  ⟨⟨initial_nonNegative, by decide, rfl⟩, rfl,
   single_transfer_keeps_balances_nonNegative (envOf ben_1) initialState "ben_1" "merch_1" 10
    GENERAL_ID initial_nonNegative (by norm_num) (by decide) (by decide) rfl⟩
